import Mathlib

/-!
Verification of the Constance kernel scheduler and port contract.

This development embeds the scheduler core of the Constance RTOS
(kernel/task.rs, kernel.rs) and the interrupt-line operations of its
RISC-V PLIC and Arm-M port drivers, and proves the scheduler's
functional specification and representation invariants.

Machine integers: task priorities and interrupt numbers are usize in the
source; they are modelled as Nat.  usize::max_value(), used by the
scheduler as the "+infinity" priority, is modelled by the constant
usizeMax.  Where wrap-around matters (the PLIC driver subtracts the
platform interrupt base before range checking), subtraction is modelled
explicitly modulo 2^32 (release-mode two's-complement wrapping on a
32-bit target).

Fallible code paths (unwrap, assert_eq!, unreachable!) are modelled by
returning Option: none stands for a panic.
-/

namespace Constance

/-- Task state machine (TaskSt in kernel/task.rs). -/
inductive TaskSt
  | Dormant
  | Ready
  | Running
  | Waiting
  | PendingActivation
deriving DecidableEq, Repr

/-- Task control block (TaskCb in kernel/task.rs).  Only the fields the
scheduler reads are carried: the priority and the state cell.  The
port-owned saved context is abstracted by the marker ctxInstalled,
which the port operation modelled by init_task_state sets.  The link
cell is represented extrinsically: ready-queue membership is recorded in
the queue lists of KernelState, indexed by the task's pool index. -/
structure TaskCb where
  priority : Nat
  st : TaskSt
  ctxInstalled : Bool
deriving DecidableEq, Repr

/-- Global kernel state (State in kernel.rs) plus the CPU-Lock flag of
the port.  Tasks are identified by their zero-based index into
taskCbPool; the public one-based Id of a task is its index plus one.
taskReadyQueue holds one FIFO bucket per priority (head = front);
taskReadyBitmap is the companion priority bitmap. -/
structure KernelState where
  taskCbPool : List TaskCb
  runningTask : Option Nat
  taskReadyQueue : List (List Nat)
  taskReadyBitmap : List Bool
  cpuLockActive : Bool
deriving DecidableEq, Repr

/-- usize::max_value(), used by the scheduler as the +infinity priority. -/
def usizeMax : Nat := 2 ^ 64 - 1

/-- Modelled from the spec: PrioBitmap::find_set (utils/prio_bitmap.rs is
not among the sources).  Returns the index of the lowest set bit, if
any: the highest-priority non-empty bucket. -/
def find_set : List Bool → Option Nat
  | [] => none
  | b :: rest => if b then some 0 else (find_set rest).map (· + 1)

/-- The state of the task at pool index t, if the index is valid. -/
def taskSt (s : KernelState) (t : Nat) : Option TaskSt :=
  (s.taskCbPool[t]?).map (·.st)

/-- The priority of the task at pool index t, if the index is valid. -/
def taskPri (s : KernelState) (t : Nat) : Option Nat :=
  (s.taskCbPool[t]?).map (·.priority)

/-- How many times task i occurs across all ready-queue buckets. -/
def inBucketCount (s : KernelState) (i : Nat) : Nat :=
  (s.taskReadyQueue.map (fun q => q.count i)).sum

/-- make_ready (kernel/task.rs): set the task's state to Ready, push it
onto the back of the ready queue for its priority, and set that
priority's bit in the bitmap. -/
def make_ready (s : KernelState) (i : Nat) : Option KernelState :=
  match s.taskCbPool[i]? with
  | none => none
  | some cb =>
    match s.taskReadyQueue[cb.priority]? with
    | none => none
    | some q =>
      some { s with
        taskCbPool := s.taskCbPool.set i { cb with st := TaskSt.Ready },
        taskReadyQueue := s.taskReadyQueue.set cb.priority (q ++ [i]),
        taskReadyBitmap := s.taskReadyBitmap.set cb.priority true }

/-- The priority that choose_next_running_task computes for the outgoing
task: the running task's priority if it exists and is in the Running
state, usize::max_value() otherwise. -/
def prevTaskPriority (s : KernelState) : Option Nat :=
  match s.runningTask with
  | none => some usizeMax
  | some i =>
    (s.taskCbPool[i]?).map
      (fun cb => if cb.st = TaskSt.Running then cb.priority else usizeMax)

/-- The priority of the next task to run: the lowest set bit of the
ready bitmap, or usize::max_value() if the bitmap is empty. -/
def nextTaskPriority (s : KernelState) : Nat :=
  (find_set s.taskReadyBitmap).getD usizeMax

/-- The pop-and-transition block of choose_next_running_task: pop the
head of the ready queue for the given priority, clear that priority's
bitmap bit if the bucket is now empty, and transition the popped task
into the Running state.  Returns the popped task. -/
def pop_front_task (s : KernelState) (pri : Nat) : Option (KernelState × Nat) :=
  match s.taskReadyQueue[pri]? with
  | none => none
  | some [] => none
  | some (h :: rest) =>
    match s.taskCbPool[h]? with
    | none => none
    | some cb =>
      some ({ s with
        taskReadyQueue := s.taskReadyQueue.set pri rest,
        taskReadyBitmap :=
          if rest.isEmpty then s.taskReadyBitmap.set pri false
          else s.taskReadyBitmap,
        taskCbPool := s.taskCbPool.set h { cb with st := TaskSt.Running } }, h)

/-- The prev-task block of choose_next_running_task: if the outgoing
task is in the Running state it is transitioned back to Ready via
make_ready; a Waiting task is left alone; any other state is
unreachable (none models the panic). -/
def settle_prev_task (s1 : KernelState) (prev : Option Nat) : Option KernelState :=
  match prev with
  | some i =>
    match s1.taskCbPool[i]? with
    | some cb =>
      match cb.st with
      | TaskSt.Running => make_ready s1 i
      | TaskSt.Waiting => some s1
      | _ => none
    | none => none
  | none => some s1

/-- choose_next_running_task (kernel/task.rs), the dispatcher's task
selection, called with CPU-Lock held.  NUM_TASK_PRIORITY_LEVELS is the
length of taskReadyQueue.  none models a kernel panic (the
unreachable!() arm, or a corrupted state). -/
def choose_next_running_task (s : KernelState) : Option KernelState :=
  match prevTaskPriority s with
  | none => none
  | some prev_pri =>
    if prev_pri ≤ nextTaskPriority s then some s
    else
      match
        ((if nextTaskPriority s < s.taskReadyQueue.length then
          (pop_front_task s (nextTaskPriority s)).map
            (fun p : KernelState × Nat => (p.1, some p.2))
        else some (s, none)) : Option (KernelState × Option Nat)) with
      | none => none
      | some (s1, next) =>
        match settle_prev_task s1 s.runningTask with
        | none => none
        | some s2 => some { s2 with runningTask := next }

/-- The priority read by unlock_cpu_and_check_preemption for the current
task: the running task's priority regardless of its state, or
usize::max_value() if there is none. -/
def runningTaskPriority (s : KernelState) : Option Nat :=
  match s.runningTask with
  | none => some usizeMax
  | some i => (s.taskCbPool[i]?).map (·.priority)

/-- unlock_cpu_and_check_preemption (kernel/task.rs): read both
priorities while still holding CPU-Lock, drop the lock, then call
yield_cpu exactly when the next priority is strictly lower-numbered.
The returned Bool records whether yield_cpu was invoked; the lock is
already inactive in the returned state at that point. -/
def unlock_cpu_and_check_preemption (s : KernelState) :
    Option (KernelState × Bool) :=
  match runningTaskPriority s with
  | none => none
  | some prev_pri =>
    some ({ s with cpuLockActive := false },
      decide (nextTaskPriority s < prev_pri))

/-- Kernel-side view of the port operation that installs a task's
initial saved context (PortThreading, kernel.rs; the Arm-M
implementation writes the initial exception frame).  The scheduler state
only records that the context was installed. -/
def init_task_state (s : KernelState) (i : Nat) : KernelState :=
  match s.taskCbPool[i]? with
  | none => s
  | some cb =>
    { s with taskCbPool := s.taskCbPool.set i { cb with ctxInstalled := true } }

/-- ActivateTaskError (kernel façade). -/
inductive ActivateTaskError
  | BadContext
  | BadId
  | QueueOverflow
deriving DecidableEq, Repr

/-- CpuLockError (kernel façade). -/
inductive CpuLockError
  | BadContext
deriving DecidableEq, Repr

/-- GetCurrentTaskError (kernel façade). -/
inductive GetCurrentTaskError
  | BadContext
deriving DecidableEq, Repr

/-- Modelled from the spec: utils::lock_cpu (kernel/utils.rs is not
among the sources).  Validates the calling context: fails with
BadContext when CPU-Lock is already active, otherwise activates
CPU-Lock and returns the guarded state. -/
def lock_cpu (s : KernelState) : Except CpuLockError KernelState :=
  if s.cpuLockActive then Except.error CpuLockError.BadContext
  else Except.ok { s with cpuLockActive := true }

/-- The private activate function (kernel/task.rs), entered with
CPU-Lock held (the guard is owned by the call).  Fails with
QueueOverflow when the task is not Dormant; the early return drops the
guard without a preemption check.  Otherwise installs the initial saved
context, calls make_ready, and releases CPU-Lock with a preemption
check.  The Bool records whether yield_cpu was invoked. -/
def activate (s : KernelState) (i : Nat) :
    Option (KernelState × Bool × Except ActivateTaskError Unit) :=
  match s.taskCbPool[i]? with
  | none => none
  | some cb =>
    if cb.st ≠ TaskSt.Dormant then
      some ({ s with cpuLockActive := false }, false,
        Except.error ActivateTaskError.QueueOverflow)
    else
      match make_ready (init_task_state s i) i with
      | none => none
      | some s2 =>
        match unlock_cpu_and_check_preemption s2 with
        | none => none
        | some (s3, y) => some (s3, y, Except.ok ())

/-- Task::activate (kernel/task.rs): take CPU-Lock via lock_cpu, look up
the control block from the one-based id (BadId when out of the pool;
the early return drops the guard), then run the private activate. -/
def task_activate (s : KernelState) (id : Nat) :
    Option (KernelState × Bool × Except ActivateTaskError Unit) :=
  match lock_cpu s with
  | Except.error _ =>
    some (s, false, Except.error ActivateTaskError.BadContext)
  | Except.ok sl =>
    match sl.taskCbPool[(id - 1)]? with
    | none =>
      some ({ sl with cpuLockActive := false }, false,
        Except.error ActivateTaskError.BadId)
    | some _ => activate sl (id - 1)

/-- Task::current (kernel/task.rs): BadContext when CPU-Lock is already
active (lock_cpu fails); otherwise the one-based id of the running task,
computed as its zero-based pool index plus one, or none when there is no
running task.  The query leaves the state unchanged (the guard is
dropped on return). -/
def task_current (s : KernelState) : Except GetCurrentTaskError (Option Nat) :=
  if s.cpuLockActive then Except.error GetCurrentTaskError.BadContext
  else
    match s.runningTask with
    | none => Except.ok none
    | some i => Except.ok (some (i + 1))

/-- The state handed to the port's exit_and_dispatch, together with the
task control block passed as its argument.  exit_and_dispatch never
returns, so this is the complete observable outcome of exit_task. -/
structure ExitOutcome where
  finalState : KernelState
  exitedTask : Nat
deriving DecidableEq, Repr

/-- exit_current_task (kernel/task.rs): activate CPU-Lock if it is
inactive (the net effect on the flag is that it is set either way);
assert the running task exists and is Running (none models the panic
otherwise); set it Dormant; clear running_task; forget the guard
(CPU-Lock stays active) and invoke the port's exit_and_dispatch, which
never returns. -/
def exit_current_task (s : KernelState) : Option ExitOutcome :=
  match s.runningTask with
  | none => none
  | some t =>
    match s.taskCbPool[t]? with
    | none => none
    | some cb =>
      if cb.st = TaskSt.Running then
        some ⟨{ s with
          taskCbPool := s.taskCbPool.set t { cb with st := TaskSt.Dormant },
          runningTask := none,
          cpuLockActive := true }, t⟩
      else none

/-- One step of the environment interleaved with the wait loop: the
yield_cpu call and everything that runs before the waiting task resumes
(the dispatcher, interrupt handlers, other tasks).  Indexed by the
iteration number. -/
def WaitEnv : Type := Nat → KernelState → KernelState

/-- The loop of wait_until_woken_up (kernel/task.rs): leave CPU-Lock,
yield (the environment runs), re-enter CPU-Lock, and exit once the
task's state reads Running again.  Fuel bounds the number of
iterations; none means the call has not returned within the fuel. -/
def wait_loop (t : Nat) (env : WaitEnv) :
    Nat → Nat → KernelState → Option KernelState
  | 0, _, _ => none
  | fuel + 1, k, s =>
    let s2 := env k { s with cpuLockActive := false }
    let s3 := { s2 with cpuLockActive := true }
    match s3.taskCbPool[t]? with
    | none => none
    | some cb =>
      if cb.st = TaskSt.Running then some s3
      else wait_loop t env fuel (k + 1) s3

/-- wait_until_woken_up (kernel/task.rs): assert the running task exists
and is Running, transition it to Waiting, then loop (leave CPU-Lock,
yield_cpu, re-enter CPU-Lock) until its state is Running again. -/
def wait_until_woken_up (env : WaitEnv) (fuel : Nat) (s : KernelState) :
    Option KernelState :=
  match s.runningTask with
  | none => none
  | some t =>
    match s.taskCbPool[t]? with
    | none => none
    | some cb =>
      if cb.st = TaskSt.Running then
        wait_loop t env fuel 0
          ({ s with taskCbPool := s.taskCbPool.set t { cb with st := TaskSt.Waiting } })
      else none

/-- Events recorded by the boot sequencer, in execution order. -/
inductive BootEvent
  | TaskCtxInstalled (i : Nat)
  | TimeoutInit
  | TimerInit
  | InterruptAttrInit
  | StartupHook (h : Nat)
  | DispatchFirstTask
deriving DecidableEq, Repr

/-- init_task (kernel/task.rs), the boot-time initialization of one
control block: a task in PendingActivation has its initial saved context
installed and is transitioned to Ready via make_ready; tasks in any
other state are left untouched. -/
def init_task (s : KernelState) (i : Nat) :
    Option (KernelState × List BootEvent) :=
  match s.taskCbPool[i]? with
  | none => none
  | some cb =>
    if cb.st = TaskSt.PendingActivation then
      match make_ready (init_task_state s i) i with
      | none => none
      | some s2 => some (s2, [BootEvent.TaskCtxInstalled i])
    else some (s, [])

/-- The boot loop over the control-block pool, in pool order. -/
def init_tasks : KernelState → List Nat → Option (KernelState × List BootEvent)
  | s, [] => some (s, [])
  | s, i :: rest =>
    match init_task s i with
    | none => none
    | some (s1, ev1) =>
      match init_tasks s1 rest with
      | none => none
      | some (s2, ev2) => some (s2, ev1 ++ ev2)

/-- PortToKernel::boot (kernel.rs), entered with CPU-Lock active:
initialize every control block in pool order, initialize the
timekeeping globals and the timer pool, install every interrupt line's
configured attributes, run the statically-registered startup hooks in
registration order, then forget the CPU-Lock guard and call the port's
dispatch_first_task, never returning.  The timing, interrupt-attribute
and hook steps belong to external collaborators and are recorded as
events only; hooks is the static registration list. -/
def boot (hooks : List Nat) (s : KernelState) :
    Option (KernelState × List BootEvent) :=
  match init_tasks s (List.range s.taskCbPool.length) with
  | none => none
  | some (s1, ev) =>
    some (s1, ev
      ++ [BootEvent.TimeoutInit, BootEvent.TimerInit, BootEvent.InterruptAttrInit]
      ++ hooks.map BootEvent.StartupHook
      ++ [BootEvent.DispatchFirstTask])

/-! ### CPU-Lock operations (kernel.rs)

The port's CPU-Lock state is the masking state of kernel-managed
interrupts; at the kernel's level of abstraction it is one Bool.
enter_cpu_lock and leave_cpu_lock are the port operations (the Arm-M
implementation writes PRIMASK or BASEPRI); is_cpu_lock_active is the
query; try_enter_cpu_lock is the default implementation from
PortThreading; acquire_cpu_lock and release_cpu_lock are the public
kernel operations built on them. -/

def is_cpu_lock_active (b : Bool) : Bool := b

def enter_cpu_lock (_b : Bool) : Bool := true

def leave_cpu_lock (_b : Bool) : Bool := false

/-- PortThreading::try_enter_cpu_lock (kernel.rs): activate CPU-Lock and
return true iff it was inactive before the call. -/
def try_enter_cpu_lock (b : Bool) : Bool × Bool :=
  if is_cpu_lock_active b then (false, b)
  else (true, enter_cpu_lock b)

/-- Kernel::acquire_cpu_lock (kernel.rs). -/
def acquire_cpu_lock (b : Bool) : Except CpuLockError Unit × Bool :=
  match try_enter_cpu_lock b with
  | (true, b1) => (Except.ok (), b1)
  | (false, b1) => (Except.error CpuLockError.BadContext, b1)

/-- Kernel::release_cpu_lock (kernel.rs). -/
def release_cpu_lock (b : Bool) : Except CpuLockError Unit × Bool :=
  if !is_cpu_lock_active b then (Except.error CpuLockError.BadContext, b)
  else (Except.ok (), leave_cpu_lock b)

/-- One matched acquire/release pair under the scoped-guard discipline:
the release is executed only when the acquire succeeded. -/
def matched_lock_pair (b : Bool) : Bool :=
  match acquire_cpu_lock b with
  | (Except.ok _, b1) => (release_cpu_lock b1).2
  | (Except.error _, b1) => b1

/-- A sequence of matched acquire/release pairs. -/
def matched_lock_pairs : Nat → Bool → Bool
  | 0, b => b
  | n + 1, b => matched_lock_pairs n (matched_lock_pair b)

/-! ### Interrupt-line operations of the port drivers

The per-operation error enumerations of the kernel façade
(SetInterruptLinePriorityError, EnableInterruptLineError,
PendInterruptLineError, ClearInterruptLineError,
QueryInterruptLineError) all carry the same two variants relevant here,
so one type stands for each of them. -/

inductive InterruptLineError
  | BadParam
  | NotSupported
deriving DecidableEq, Repr

/-- PortInterrupts::pend_interrupt_line default body (kernel.rs): a
driver that does not implement the operation reports NotSupported and
touches nothing. -/
def default_pend_interrupt_line (_line : Nat) : Except InterruptLineError Unit :=
  Except.error InterruptLineError.NotSupported

/-- PortInterrupts::clear_interrupt_line default body (kernel.rs). -/
def default_clear_interrupt_line (_line : Nat) : Except InterruptLineError Unit :=
  Except.error InterruptLineError.NotSupported

/-- Two's-complement wrap-around subtraction on a 32-bit usize: the
release-mode compilation of the untyped subtraction performed by the
PLIC driver before its range check. -/
def usizeWrapSub (a b : Nat) : Nat :=
  (a % 2 ^ 32 + (2 ^ 32 - b % 2 ^ 32)) % 2 ^ 32

/-- Bitwise complement of a u32 value. -/
def u32Not (x : Nat) : Nat := 2 ^ 32 - 1 - x % 2 ^ 32

/-- Static parameters of the RISC-V PLIC driver.  platformStart is
INTERRUPT_PLATFORM_START, the platform's first external interrupt
number; maxNum and maxPriority are Plic::MAX_NUM and
Plic::MAX_PRIORITY (InterruptPriority is i32). -/
structure PlicParams where
  platformStart : Nat
  maxNum : Nat
  maxPriority : Int
deriving DecidableEq, Repr

/-- The PLIC registers the driver writes for one hart context: the
per-source priority registers, the enable words, and the read-only
pending words. -/
structure PlicRegs where
  interruptPriority : List Nat
  interruptEnable : List Nat
  interruptPending : List Nat
deriving DecidableEq, Repr

/-- plic::imp::set_interrupt_line_priority: subtract the platform base
(wrapping), range-check the source index and the priority, then write
the source's priority register. -/
def plic_set_interrupt_line_priority (P : PlicParams) (regs : PlicRegs)
    (line : Nat) (priority : Int) : Except InterruptLineError PlicRegs :=
  let idx := usizeWrapSub line P.platformStart
  if idx > P.maxNum ∨ priority < 0 ∨ priority > P.maxPriority then
    Except.error InterruptLineError.BadParam
  else
    Except.ok { regs with
      interruptPriority := regs.interruptPriority.set idx priority.toNat }

/-- plic::imp::enable_interrupt_line: subtract the platform base
(wrapping), range-check, then set the source's bit in its enable word. -/
def plic_enable_interrupt_line (P : PlicParams) (regs : PlicRegs)
    (line : Nat) : Except InterruptLineError PlicRegs :=
  let idx := usizeWrapSub line P.platformStart
  if idx > P.maxNum then Except.error InterruptLineError.BadParam
  else
    let w := regs.interruptEnable.getD (idx / 32) 0
    Except.ok { regs with
      interruptEnable := regs.interruptEnable.set (idx / 32) (w ||| (1 <<< (idx % 32))) }

/-- plic::imp::disable_interrupt_line: as enable, clearing the bit. -/
def plic_disable_interrupt_line (P : PlicParams) (regs : PlicRegs)
    (line : Nat) : Except InterruptLineError PlicRegs :=
  let idx := usizeWrapSub line P.platformStart
  if idx > P.maxNum then Except.error InterruptLineError.BadParam
  else
    let w := regs.interruptEnable.getD (idx / 32) 0
    Except.ok { regs with
      interruptEnable := regs.interruptEnable.set (idx / 32) (w &&& u32Not (1 <<< (idx % 32))) }

/-- plic::imp::is_interrupt_line_pending: subtract the platform base
(wrapping), range-check, then test the source's bit in the pending
word.  Reads only. -/
def plic_is_interrupt_line_pending (P : PlicParams) (regs : PlicRegs)
    (line : Nat) : Except InterruptLineError Bool :=
  let idx := usizeWrapSub line P.platformStart
  if idx > P.maxNum then Except.error InterruptLineError.BadParam
  else
    Except.ok (decide ((regs.interruptPending.getD (idx / 32) 0) &&& (1 <<< (idx % 32)) ≠ 0))

/-- Static parameters of the Arm-M port: the supported interrupt-number
range (numStart..numEnd, half-open), the first external interrupt
number INTERRUPT_EXTERNAL0, the SysTick number INTERRUPT_SYSTICK, and
the supported priority range. -/
structure ArmMParams where
  numStart : Nat
  numEnd : Nat
  external0 : Nat
  sysTick : Nat
  priStart : Int
  priEnd : Int
deriving DecidableEq, Repr

/-- The NVIC and SysTick state the Arm-M port's interrupt-line
operations touch, at per-line granularity. -/
structure NvicState where
  nvicPriority : List Nat
  nvicEnabled : List Bool
  nvicPending : List Bool
  sysTickPending : Bool
  sysTickPriority : Nat
deriving DecidableEq, Repr

/-- State::set_interrupt_line_priority (threading.rs): range-check the
priority and the number first, then route to the NVIC (external lines)
or the SysTick system handler. -/
def armm_set_interrupt_line_priority (P : ArmMParams) (st : NvicState)
    (num : Nat) (priority : Int) : Except InterruptLineError NvicState :=
  if ¬(P.priStart ≤ priority ∧ priority < P.priEnd) ∨
      ¬(P.numStart ≤ num ∧ num < P.numEnd) then
    Except.error InterruptLineError.BadParam
  else if num ≥ P.external0 then
    Except.ok { st with
      nvicPriority := st.nvicPriority.set (num - P.external0) priority.toNat }
  else if num = P.sysTick then
    Except.ok { st with sysTickPriority := priority.toNat }
  else Except.error InterruptLineError.BadParam

/-- State::enable_interrupt_line (threading.rs): range-check first;
only external lines can be unmasked. -/
def armm_enable_interrupt_line (P : ArmMParams) (st : NvicState)
    (num : Nat) : Except InterruptLineError NvicState :=
  if ¬(P.numStart ≤ num ∧ num < P.numEnd) then
    Except.error InterruptLineError.BadParam
  else if num ≥ P.external0 then
    Except.ok { st with nvicEnabled := st.nvicEnabled.set (num - P.external0) true }
  else Except.error InterruptLineError.BadParam

/-- State::disable_interrupt_line (threading.rs). -/
def armm_disable_interrupt_line (P : ArmMParams) (st : NvicState)
    (num : Nat) : Except InterruptLineError NvicState :=
  if ¬(P.numStart ≤ num ∧ num < P.numEnd) then
    Except.error InterruptLineError.BadParam
  else if num ≥ P.external0 then
    Except.ok { st with nvicEnabled := st.nvicEnabled.set (num - P.external0) false }
  else Except.error InterruptLineError.BadParam

/-- State::pend_interrupt_line (threading.rs): external lines pend via
the NVIC; SysTick pends via the system control block. -/
def armm_pend_interrupt_line (P : ArmMParams) (st : NvicState)
    (num : Nat) : Except InterruptLineError NvicState :=
  if ¬(P.numStart ≤ num ∧ num < P.numEnd) then
    Except.error InterruptLineError.BadParam
  else if num ≥ P.external0 then
    Except.ok { st with nvicPending := st.nvicPending.set (num - P.external0) true }
  else if num = P.sysTick then
    Except.ok { st with sysTickPending := true }
  else Except.error InterruptLineError.BadParam

/-- State::clear_interrupt_line (threading.rs). -/
def armm_clear_interrupt_line (P : ArmMParams) (st : NvicState)
    (num : Nat) : Except InterruptLineError NvicState :=
  if ¬(P.numStart ≤ num ∧ num < P.numEnd) then
    Except.error InterruptLineError.BadParam
  else if num ≥ P.external0 then
    Except.ok { st with nvicPending := st.nvicPending.set (num - P.external0) false }
  else if num = P.sysTick then
    Except.ok { st with sysTickPending := false }
  else Except.error InterruptLineError.BadParam

/-- State::is_interrupt_line_pending (threading.rs).  Reads only. -/
def armm_is_interrupt_line_pending (P : ArmMParams) (st : NvicState)
    (num : Nat) : Except InterruptLineError Bool :=
  if ¬(P.numStart ≤ num ∧ num < P.numEnd) then
    Except.error InterruptLineError.BadParam
  else if num ≥ P.external0 then
    Except.ok (st.nvicPending.getD (num - P.external0) false)
  else if num = P.sysTick then
    Except.ok st.sysTickPending
  else Except.error InterruptLineError.BadParam

/-! ### Invariants of the scheduler state -/

/-- Invariant: bit p of the bitmap is set iff ready-queue bucket p is
non-empty. -/
@[reducible] def BitmapInv (s : KernelState) : Prop :=
  ∀ p < s.taskReadyQueue.length,
    (s.taskReadyBitmap.getD p false = true ↔ s.taskReadyQueue.getD p [] ≠ [])

/-- Invariant: every task is linked into at most one bucket (counting
multiplicity across all buckets). -/
@[reducible] def AtMostOneBucket (s : KernelState) : Prop :=
  ∀ i < s.taskCbPool.length, inBucketCount s i ≤ 1

/-- Invariant: a task linked into a bucket is in the Ready state. -/
@[reducible] def InBucketReady (s : KernelState) : Prop :=
  ∀ q ∈ s.taskReadyQueue, ∀ i ∈ q, taskSt s i = some TaskSt.Ready

/-- The ready-queue representation invariant. -/
@[reducible] def ReadyInv (s : KernelState) : Prop :=
  BitmapInv s ∧ AtMostOneBucket s ∧ InBucketReady s

/-- Invariant: the running task, when present, is in the Running state
and is not a member of any ready-queue bucket. -/
@[reducible] def RunningInv (s : KernelState) : Prop :=
  ∀ t < s.taskCbPool.length, s.runningTask = some t →
    taskSt s t = some TaskSt.Running ∧ inBucketCount s t = 0

/-- A task observed in the Running state is the recorded running task
and is not in any bucket.  Unlike RunningInv this remains true while
the wait primitive has transiently moved the running task to Waiting. -/
@[reducible] def RunningBack (s : KernelState) : Prop :=
  ∀ t < s.taskCbPool.length, taskSt s t = some TaskSt.Running →
    s.runningTask = some t ∧ inBucketCount s t = 0

/-- Structural well-formedness tying the state to the static
configuration: the bitmap covers exactly the priority levels, task
priorities and queue members are in range, the running-task reference is
valid, and the number of priority levels fits in a usize. -/
@[reducible] def WF (s : KernelState) : Prop :=
  s.taskReadyBitmap.length = s.taskReadyQueue.length ∧
  (∀ cb ∈ s.taskCbPool, cb.priority < s.taskReadyQueue.length) ∧
  (∀ q ∈ s.taskReadyQueue, ∀ i ∈ q, i < s.taskCbPool.length) ∧
  (∀ t ∈ s.runningTask, t < s.taskCbPool.length) ∧
  s.taskReadyQueue.length ≤ usizeMax

/-- The invariant that holds between any two CPU-Lock sections, also
while a task is parked inside the wait loop. -/
@[reducible] def MidInv (s : KernelState) : Prop := WF s ∧ ReadyInv s ∧ RunningBack s

/-- The full scheduler invariant, holding after every complete kernel
operation. -/
@[reducible] def SchedInv (s : KernelState) : Prop :=
  WF s ∧ ReadyInv s ∧ RunningInv s ∧ RunningBack s

/-- An environment (dispatcher, interrupt handlers, other tasks) whose
every step preserves the between-sections invariant. -/
def EnvOK (env : WaitEnv) : Prop :=
  ∀ k s, MidInv s → MidInv (env k s)

/-! ### Helper lemmas -/

theorem matched_lock_pair_id (b : Bool) : matched_lock_pair b = b := by
  cases b <;> rfl

theorem matched_lock_pairs_id (n : Nat) (b : Bool) : matched_lock_pairs n b = b := by
  induction n generalizing b with
  | zero => rfl
  | succ n ih => simp [matched_lock_pairs, matched_lock_pair_id, ih]

/-! ### C5: CPU-Lock acquisition and release -/

/-- C5: acquire_cpu_lock succeeds and activates CPU-Lock exactly when it
was inactive, failing with BadContext and leaving the lock unchanged
when it was active; release_cpu_lock is the dual; try_enter_cpu_lock
returns true exactly when the call transitioned the lock from inactive
to active; and any sequence of matched acquire/release pairs leaves
is_cpu_lock_active unchanged. -/
theorem C5_cpu_lock_roundtrip :
    (∀ b, acquire_cpu_lock b =
      if b then (Except.error CpuLockError.BadContext, b) else (Except.ok (), true)) ∧
    (∀ b, release_cpu_lock b =
      if b then (Except.ok (), false) else (Except.error CpuLockError.BadContext, b)) ∧
    (∀ b, (try_enter_cpu_lock b).1 = true ↔
      (is_cpu_lock_active b = false ∧ is_cpu_lock_active (try_enter_cpu_lock b).2 = true)) ∧
    (∀ n b, is_cpu_lock_active (matched_lock_pairs n b) = is_cpu_lock_active b) := by
  refine ⟨fun b => by cases b <;> rfl, fun b => by cases b <;> rfl,
    fun b => by cases b <;> simp [try_enter_cpu_lock, is_cpu_lock_active, enter_cpu_lock],
    fun n b => by rw [matched_lock_pairs_id]⟩

/-! ### C10: Task::current -/

/-- C10: Task::current fails with BadContext whenever CPU-Lock is
already active at the call; otherwise it returns Ok none when there is
no running task, and Ok (some id) where id is the running task's
zero-based pool index plus one — precisely the one-based Id carried by
the statically-created handle of the same task, so the two handles
compare equal. -/
theorem C10_task_current (s : KernelState) :
    (s.cpuLockActive = true → task_current s = Except.error GetCurrentTaskError.BadContext) ∧
    (s.cpuLockActive = false → s.runningTask = none → task_current s = Except.ok none) ∧
    (∀ i, s.cpuLockActive = false → s.runningTask = some i →
      task_current s = Except.ok (some (i + 1))) := by
  refine ⟨fun h => by simp [task_current, h], fun h h2 => by simp [task_current, h, h2],
    fun i h h2 => by simp [task_current, h, h2]⟩

theorem kernelState_eq (a b : KernelState)
    (h1 : a.taskCbPool = b.taskCbPool) (h2 : a.runningTask = b.runningTask)
    (h3 : a.taskReadyQueue = b.taskReadyQueue)
    (h4 : a.taskReadyBitmap = b.taskReadyBitmap)
    (h5 : a.cpuLockActive = b.cpuLockActive) : a = b := by
  cases a; cases b; simp_all

theorem make_ready_eq (s : KernelState) (i : Nat) (cb : TaskCb) (q : List Nat)
    (hcb : s.taskCbPool[i]? = some cb)
    (hq : s.taskReadyQueue[cb.priority]? = some q) :
    make_ready s i = some { s with
      taskCbPool := s.taskCbPool.set i { cb with st := TaskSt.Ready },
      taskReadyQueue := s.taskReadyQueue.set cb.priority (q ++ [i]),
      taskReadyBitmap := s.taskReadyBitmap.set cb.priority true } := by
  simp [make_ready, hcb, hq]

theorem runningTaskPriority_isSome (s : KernelState)
    (h : ∀ t, s.runningTask = some t → t < s.taskCbPool.length) :
    ∃ p, runningTaskPriority s = some p := by
  cases hr : s.runningTask with
  | none => exact ⟨usizeMax, by simp [runningTaskPriority, hr]⟩
  | some t =>
    exact ⟨(s.taskCbPool.get ⟨t, h t hr⟩).priority,
      by simp [runningTaskPriority, hr, List.getElem?_eq_getElem (h t hr)]⟩

theorem find_set_some (l : List Bool) (n : Nat) (h : find_set l = some n) :
    n < l.length ∧ l[n]? = some true := by
  induction l generalizing n with
  | nil => simp [find_set] at h
  | cons b rest ih =>
    unfold find_set at h
    by_cases hb : b
    · subst hb
      simp at h
      subst h
      simp
    · simp only [hb, if_neg, Bool.false_eq_true, ite_false] at h
      cases hfs : find_set rest with
      | none => rw [hfs] at h; simp at h
      | some m =>
        rw [hfs] at h
        simp at h
        obtain ⟨hm, hv⟩ := ih m hfs
        subst h
        refine ⟨Nat.succ_lt_succ hm, ?_⟩
        rw [List.getElem?_cons_succ]
        exact hv

theorem find_set_none (l : List Bool) (h : find_set l = none) :
    ∀ p, p < l.length → l[p]? = some false := by
  induction l with
  | nil => intro p hp; simp at hp
  | cons b rest ih =>
    unfold find_set at h
    by_cases hb : b
    · simp [hb] at h
    · simp only [hb, Bool.false_eq_true, ite_false] at h
      have hrest : find_set rest = none := by
        cases hfs : find_set rest with
        | none => rfl
        | some m => rw [hfs] at h; simp at h
      intro p hp
      cases p with
      | zero => simpa using Bool.eq_false_iff.mpr hb
      | succ p =>
        have := ih hrest p (by simpa using hp)
        rw [List.getElem?_cons_succ]
        exact this

theorem prevTaskPriority_le (s : KernelState) (pp : Nat)
    (hwf : WF s) (h : prevTaskPriority s = some pp) : pp ≤ usizeMax := by
  unfold prevTaskPriority at h
  cases hr : s.runningTask with
  | none => rw [hr] at h; simp at h; omega
  | some t =>
    rw [hr] at h
    cases hcb : s.taskCbPool[t]? with
    | none => simp [hcb] at h
    | some cb =>
      simp [hcb] at h
      by_cases hst : cb.st = TaskSt.Running
      · rw [if_pos hst] at h
        subst h
        have := hwf.2.1 cb (List.getElem?_mem hcb)
        have := hwf.2.2.2.2
        omega
      · rw [if_neg hst] at h; omega

/-- When the next priority is strictly below a usize value, the bitmap
has a set bit at that priority and it indexes a real bucket. -/
theorem nextTaskPriority_lt (s : KernelState) (pp : Nat)
    (hwf : WF s) (hpp : pp ≤ usizeMax) (hlt : nextTaskPriority s < pp) :
    nextTaskPriority s < s.taskReadyQueue.length ∧
      s.taskReadyBitmap[nextTaskPriority s]? = some true := by
  unfold nextTaskPriority at hlt ⊢
  cases hfs : find_set s.taskReadyBitmap with
  | none => rw [hfs] at hlt; simp at hlt; omega
  | some n =>
    obtain ⟨hn, hv⟩ := find_set_some _ _ hfs
    simp only [Option.getD_some] at hlt ⊢
    exact ⟨by rw [← hwf.1]; exact hn, hv⟩

theorem pop_front_task_inv (s : KernelState) (pri : Nat) (s' : KernelState) (h1 : Nat)
    (h : pop_front_task s pri = some (s', h1)) :
    ∃ rest cb, s.taskReadyQueue[pri]? = some (h1 :: rest) ∧
      s.taskCbPool[h1]? = some cb ∧
      s' = { s with
        taskReadyQueue := s.taskReadyQueue.set pri rest,
        taskReadyBitmap :=
          if rest.isEmpty then s.taskReadyBitmap.set pri false
          else s.taskReadyBitmap,
        taskCbPool := s.taskCbPool.set h1 { cb with st := TaskSt.Running } } := by
  unfold pop_front_task at h
  split at h
  · exact absurd h (by simp)
  · exact absurd h (by simp)
  · rename_i hd rest hq
    split at h
    · exact absurd h (by simp)
    · rename_i cb hcb
      simp only [Option.some_inj, Prod.mk.injEq] at h
      obtain ⟨hs, hh⟩ := h
      subst hh
      exact ⟨rest, cb, hq, hcb, hs.symm⟩

theorem make_ready_inv (s : KernelState) (i : Nat) (s' : KernelState)
    (h : make_ready s i = some s') :
    ∃ cb q, s.taskCbPool[i]? = some cb ∧ s.taskReadyQueue[cb.priority]? = some q ∧
      s' = { s with
        taskCbPool := s.taskCbPool.set i { cb with st := TaskSt.Ready },
        taskReadyQueue := s.taskReadyQueue.set cb.priority (q ++ [i]),
        taskReadyBitmap := s.taskReadyBitmap.set cb.priority true } := by
  unfold make_ready at h
  split at h
  · exact absurd h (by simp)
  · rename_i cb hcb
    split at h
    · exact absurd h (by simp)
    · rename_i q hq
      exact ⟨cb, q, hcb, hq, (Option.some_inj.mp h).symm⟩

theorem make_ready_WF (s s' : KernelState) (i : Nat)
    (hwf : WF s) (h : make_ready s i = some s') : WF s' := by
  obtain ⟨cb, q, hcb, hq, rfl⟩ := make_ready_inv s i s' h
  obtain ⟨hi, -⟩ := List.getElem?_eq_some.mp hcb
  refine ⟨by simp [hwf.1], ?_, ?_, ?_, by simpa using hwf.2.2.2.2⟩
  · intro cb' hmem
    simp only [List.length_set]
    rcases List.mem_or_eq_of_mem_set hmem with hm | rfl
    · exact hwf.2.1 cb' hm
    · exact hwf.2.1 cb (List.getElem?_mem hcb)
  · intro qq hqq j hj
    simp only [List.length_set]
    rcases List.mem_or_eq_of_mem_set hqq with hm | rfl
    · exact hwf.2.2.1 qq hm j hj
    · rcases List.mem_append.mp hj with hj | hj
      · exact hwf.2.2.1 q (List.getElem?_mem hq) j hj
      · simp at hj; subst hj; exact hi
  · intro t htm
    simp only [List.length_set]
    exact hwf.2.2.2.1 t htm

theorem pop_front_task_WF (s : KernelState) (pri : Nat) (s' : KernelState) (h1 : Nat)
    (hwf : WF s) (h : pop_front_task s pri = some (s', h1)) : WF s' := by
  obtain ⟨rest, cb, hq, hcb, rfl⟩ := pop_front_task_inv s pri s' h1 h
  refine ⟨by split <;> simp [hwf.1], ?_, ?_, ?_, by simpa using hwf.2.2.2.2⟩
  · intro cb' hmem
    simp only [List.length_set]
    rcases List.mem_or_eq_of_mem_set hmem with hm | rfl
    · exact hwf.2.1 cb' hm
    · exact hwf.2.1 cb (List.getElem?_mem hcb)
  · intro qq hqq j hj
    simp only [List.length_set]
    rcases List.mem_or_eq_of_mem_set hqq with hm | rfl
    · exact hwf.2.2.1 qq hm j hj
    · exact hwf.2.2.1 _ (List.getElem?_mem hq) j (List.mem_cons_of_mem _ hj)
  · intro t htm
    simp only [List.length_set]
    exact hwf.2.2.2.1 t htm

theorem sum_count_set (l : List (List Nat)) (p : Nat) (q q' : List Nat) (j : Nat)
    (h : l[p]? = some q) :
    ((l.set p q').map (fun b => b.count j)).sum + q.count j
      = (l.map (fun b => b.count j)).sum + q'.count j := by
  induction l generalizing p with
  | nil => simp at h
  | cons a l ih =>
    cases p with
    | zero =>
      simp only [List.getElem?_cons_zero, Option.some_inj] at h
      subst h
      simp [List.set_cons_zero]
      omega
    | succ p =>
      simp only [List.getElem?_cons_succ] at h
      have := ih p h
      simp only [List.set_cons_succ, List.map_cons, List.sum_cons]
      omega

theorem inBucketCount_make_ready (s s' : KernelState) (i j : Nat)
    (h : make_ready s i = some s') :
    inBucketCount s' j = inBucketCount s j + if i = j then 1 else 0 := by
  obtain ⟨cb, q, hcb, hq, rfl⟩ := make_ready_inv s i s' h
  have hsum := sum_count_set s.taskReadyQueue cb.priority q (q ++ [i]) j hq
  have happ : (q ++ [i]).count j = q.count j + [i].count j := List.count_append _ _ _
  have hsing : [i].count j = if i = j then 1 else 0 := by simp [List.count_singleton']
  unfold inBucketCount
  simp only []
  omega

theorem inBucketCount_pop (s s' : KernelState) (pri h1 j : Nat)
    (h : pop_front_task s pri = some (s', h1)) :
    inBucketCount s j = inBucketCount s' j + if h1 = j then 1 else 0 := by
  obtain ⟨rest, cb, hq, hcb, rfl⟩ := pop_front_task_inv s pri s' h1 h
  have hsum := sum_count_set s.taskReadyQueue pri (h1 :: rest) rest j hq
  have hcons : (h1 :: rest).count j = rest.count j + if h1 = j then 1 else 0 := by
    rw [show h1 :: rest = [h1] ++ rest from rfl, List.count_append]
    have : [h1].count j = if h1 = j then 1 else 0 := by simp [List.count_singleton']
    omega
  unfold inBucketCount
  simp only []
  omega

theorem not_mem_bucket_of_count_zero (s : KernelState) (j : Nat)
    (h : inBucketCount s j = 0) : ∀ qq ∈ s.taskReadyQueue, j ∉ qq := by
  intro qq hqq hj
  unfold inBucketCount at h
  rw [List.sum_eq_zero_iff] at h
  have := h (qq.count j) (List.mem_map.mpr ⟨qq, hqq, rfl⟩)
  have := List.count_pos_iff_mem.mpr hj
  omega

theorem count_zero_of_not_ready (s : KernelState) (t : Nat) (cb : TaskCb)
    (hinv : InBucketReady s) (hcb : s.taskCbPool[t]? = some cb)
    (hst : cb.st ≠ TaskSt.Ready) : inBucketCount s t = 0 := by
  unfold inBucketCount
  rw [List.sum_eq_zero_iff]
  intro x hx
  obtain ⟨qq, hqq, rfl⟩ := List.mem_map.mp hx
  by_contra hne
  have hmem : t ∈ qq := by
    have : 0 < qq.count t := by omega
    exact List.count_pos_iff_mem.mp this
  have := hinv qq hqq t hmem
  rw [taskSt, hcb] at this
  simp at this
  exact hst this

theorem make_ready_ReadyInv (s s' : KernelState) (i : Nat)
    (hwf : WF s) (hinv : ReadyInv s) (hni : inBucketCount s i = 0)
    (h : make_ready s i = some s') : ReadyInv s' := by
  have hcount := fun j => inBucketCount_make_ready s s' i j h
  obtain ⟨cb, q, hcb, hq, rfl⟩ := make_ready_inv s i s' h
  obtain ⟨hi, -⟩ := List.getElem?_eq_some.mp hcb
  obtain ⟨hpq, -⟩ := List.getElem?_eq_some.mp hq
  have hpb : cb.priority < s.taskReadyBitmap.length := by rw [hwf.1]; exact hpq
  refine ⟨?_, ?_, ?_⟩
  · intro p' hp'
    simp only [List.length_set] at hp'
    by_cases hpp : p' = cb.priority
    · subst hpp
      rw [List.getD_eq_getElem?_getD, List.getD_eq_getElem?_getD,
        List.getElem?_set_eq_of_lt _ hpb, List.getElem?_set_eq_of_lt _ hpq]
      simp
    · rw [List.getD_eq_getElem?_getD, List.getD_eq_getElem?_getD,
        List.getElem?_set_ne (fun he => hpp he.symm),
        List.getElem?_set_ne (fun he => hpp he.symm),
        ← List.getD_eq_getElem?_getD, ← List.getD_eq_getElem?_getD]
      exact hinv.1 p' hp'
  · intro j hj
    simp only [List.length_set] at hj
    rw [hcount j]
    by_cases hij : i = j
    · subst hij; rw [hni]; simp
    · simp only [hij, if_false, Nat.add_zero]
      exact hinv.2.1 j hj
  · intro qq hqq j hj
    have hstj : ∀ u, u ≠ i → taskSt { s with
        taskCbPool := s.taskCbPool.set i { cb with st := TaskSt.Ready },
        taskReadyQueue := s.taskReadyQueue.set cb.priority (q ++ [i]),
        taskReadyBitmap := s.taskReadyBitmap.set cb.priority true } u = taskSt s u := by
      intro u hu
      unfold taskSt
      rw [List.getElem?_set_ne (fun he => hu he.symm)]
    have hsti : taskSt { s with
        taskCbPool := s.taskCbPool.set i { cb with st := TaskSt.Ready },
        taskReadyQueue := s.taskReadyQueue.set cb.priority (q ++ [i]),
        taskReadyBitmap := s.taskReadyBitmap.set cb.priority true } i
        = some TaskSt.Ready := by
      unfold taskSt
      rw [List.getElem?_set_eq_of_lt _ hi]
      rfl
    by_cases hji : j = i
    · subst hji; exact hsti
    · rw [hstj j hji]
      rcases List.mem_or_eq_of_mem_set hqq with hm | rfl
      · exact hinv.2.2 qq hm j hj
      · rcases List.mem_append.mp hj with hj | hj
        · exact hinv.2.2 q (List.getElem?_mem hq) j hj
        · simp at hj; exact absurd hj hji

theorem pop_ReadyInv (s s' : KernelState) (pri h1 : Nat)
    (hwf : WF s) (hinv : ReadyInv s)
    (h : pop_front_task s pri = some (s', h1)) :
    ReadyInv s' ∧ inBucketCount s' h1 = 0 := by
  have hcount := fun j => inBucketCount_pop s s' pri h1 j h
  obtain ⟨rest, cb, hq, hcb, rfl⟩ := pop_front_task_inv s pri s' h1 h
  obtain ⟨hpq, -⟩ := List.getElem?_eq_some.mp hq
  obtain ⟨hh1, -⟩ := List.getElem?_eq_some.mp hcb
  have hpb : pri < s.taskReadyBitmap.length := by rw [hwf.1]; exact hpq
  have hc1 : inBucketCount s h1 ≤ 1 := hinv.2.1 h1 hh1
  have hmem : h1 ∈ s.taskReadyQueue.get ⟨pri, hpq⟩ := by
    have : s.taskReadyQueue.get ⟨pri, hpq⟩ = h1 :: rest := by
      have := List.getElem?_eq_getElem hpq
      rw [hq] at this
      simpa using this.symm
    rw [this]; exact List.mem_cons_self _ _
  have hge : 1 ≤ inBucketCount s h1 := by
    unfold inBucketCount
    calc 1 ≤ (s.taskReadyQueue.get ⟨pri, hpq⟩).count h1 :=
          List.count_pos_iff_mem.mpr hmem
      _ ≤ _ := List.le_sum_of_mem (List.mem_map.mpr
          ⟨_, List.get_mem _ _ _, rfl⟩)
  have hzero : inBucketCount { s with
      taskReadyQueue := s.taskReadyQueue.set pri rest,
      taskReadyBitmap :=
        if rest.isEmpty then s.taskReadyBitmap.set pri false
        else s.taskReadyBitmap,
      taskCbPool := s.taskCbPool.set h1 { cb with st := TaskSt.Running } } h1 = 0 := by
    have h2 := hcount h1
    rw [if_pos rfl] at h2
    omega
  refine ⟨⟨?_, ?_, ?_⟩, hzero⟩
  · intro p' hp'
    simp only [List.length_set] at hp'
    show (if rest.isEmpty then s.taskReadyBitmap.set pri false
        else s.taskReadyBitmap).getD p' false = true
      ↔ (s.taskReadyQueue.set pri rest).getD p' [] ≠ []
    by_cases hpp : p' = pri
    · subst hpp
      have hqd : (s.taskReadyQueue.set p' rest).getD p' [] = rest := by
        rw [List.getD_eq_getElem?_getD, List.getElem?_set_eq_of_lt _ hpq]
        rfl
      by_cases hre : rest.isEmpty
      · rw [if_pos hre]
        have : rest = [] := by simpa using hre
        subst this
        simp only [hqd]
        rw [List.getD_eq_getElem?_getD, List.getElem?_set_eq_of_lt _ hpb]
        simp
      · rw [if_neg hre]
        have hrne : rest ≠ [] := by simpa using hre
        have holdq : s.taskReadyQueue.getD p' [] = h1 :: rest := by
          rw [List.getD_eq_getElem?_getD, hq]; rfl
        have hbit : s.taskReadyBitmap.getD p' false = true := by
          rw [hinv.1 p' hp', holdq]; simp
        rw [hqd]
        simp only [ne_eq, hrne, not_false_eq_true, iff_true]
        exact hbit
    · have hqd : (s.taskReadyQueue.set pri rest).getD p' [] = s.taskReadyQueue.getD p' [] := by
        rw [List.getD_eq_getElem?_getD, List.getElem?_set_ne (fun he => hpp he.symm),
          ← List.getD_eq_getElem?_getD]
      have hbd : (if rest.isEmpty then s.taskReadyBitmap.set pri false
          else s.taskReadyBitmap).getD p' false = s.taskReadyBitmap.getD p' false := by
        split
        · rw [List.getD_eq_getElem?_getD, List.getElem?_set_ne (fun he => hpp he.symm),
            ← List.getD_eq_getElem?_getD]
        · rfl
      rw [hqd, hbd]
      exact hinv.1 p' hp'
  · intro j hj
    simp only [List.length_set] at hj
    have := hcount j
    have := hinv.2.1 j hj
    omega
  · intro qq hqq j hj
    have hjh : j ≠ h1 := by
      intro he
      subst he
      exact not_mem_bucket_of_count_zero _ _ hzero qq hqq hj
    have hstu : taskSt { s with
        taskReadyQueue := s.taskReadyQueue.set pri rest,
        taskReadyBitmap :=
          if rest.isEmpty then s.taskReadyBitmap.set pri false
          else s.taskReadyBitmap,
        taskCbPool := s.taskCbPool.set h1 { cb with st := TaskSt.Running } } j
        = taskSt s j := by
      unfold taskSt
      rw [List.getElem?_set_ne (fun he => hjh he.symm)]
    rw [hstu]
    rcases List.mem_or_eq_of_mem_set hqq with hm | rfl
    · exact hinv.2.2 qq hm j hj
    · exact hinv.2.2 _ (List.getElem?_mem hq) j (List.mem_cons_of_mem _ hj)

theorem settle_prev_task_inv (s1 : KernelState) (prev : Option Nat) (s2 : KernelState)
    (h : settle_prev_task s1 prev = some s2) :
    (prev = none ∧ s2 = s1) ∨
    ∃ t cbt, prev = some t ∧ s1.taskCbPool[t]? = some cbt ∧
      ((cbt.st = TaskSt.Running ∧ make_ready s1 t = some s2) ∨
       (cbt.st = TaskSt.Waiting ∧ s2 = s1)) := by
  unfold settle_prev_task at h
  split at h
  · rename_i t
    split at h
    · rename_i cbt hcbt
      split at h
      · exact Or.inr ⟨t, cbt, rfl, hcbt, Or.inl ⟨by assumption, h⟩⟩
      · exact Or.inr ⟨t, cbt, rfl, hcbt,
          Or.inr ⟨by assumption, (Option.some_inj.mp h).symm⟩⟩
      · exact absurd h (by simp)
    · exact absurd h (by simp)
  · exact Or.inl ⟨rfl, (Option.some_inj.mp h).symm⟩

theorem settle_prev_task_none (s1 : KernelState) :
    settle_prev_task s1 none = some s1 := rfl

theorem settle_prev_task_waiting (s1 : KernelState) (t : Nat) (cbt : TaskCb)
    (hcbt : s1.taskCbPool[t]? = some cbt) (hst : cbt.st = TaskSt.Waiting) :
    settle_prev_task s1 (some t) = some s1 := by
  simp [settle_prev_task, hcbt, hst]

theorem settle_prev_task_running (s1 : KernelState) (t : Nat) (cbt : TaskCb)
    (hcbt : s1.taskCbPool[t]? = some cbt) (hst : cbt.st = TaskSt.Running) :
    settle_prev_task s1 (some t) = make_ready s1 t := by
  simp [settle_prev_task, hcbt, hst]

theorem bucket_nonempty_of_bit (s : KernelState) (p : Nat)
    (hinv : BitmapInv s) (hp : p < s.taskReadyQueue.length)
    (hbit : s.taskReadyBitmap[p]? = some true) :
    ∃ h1 rest, s.taskReadyQueue[p]? = some (h1 :: rest) := by
  have hiff := hinv p hp
  have hbd : s.taskReadyBitmap.getD p false = true := by
    rw [List.getD_eq_getElem?_getD, hbit]; rfl
  have hne := hiff.mp hbd
  obtain ⟨q, hq⟩ : ∃ q, s.taskReadyQueue[p]? = some q :=
    ⟨_, List.getElem?_eq_getElem hp⟩
  have hqne : q ≠ [] := by
    have hgd : s.taskReadyQueue.getD p [] = q := by
      rw [List.getD_eq_getElem?_getD, hq]; rfl
    rwa [hgd] at hne
  cases q with
  | nil => exact absurd rfl hqne
  | cons a l => exact ⟨a, l, hq⟩

theorem pop_front_task_eq (s : KernelState) (p h1 : Nat) (rest : List Nat) (cb : TaskCb)
    (hq : s.taskReadyQueue[p]? = some (h1 :: rest)) (hcb : s.taskCbPool[h1]? = some cb) :
    pop_front_task s p = some ({ s with
      taskReadyQueue := s.taskReadyQueue.set p rest,
      taskReadyBitmap := if rest.isEmpty then s.taskReadyBitmap.set p false
        else s.taskReadyBitmap,
      taskCbPool := s.taskCbPool.set h1 { cb with st := TaskSt.Running } }, h1) := by
  simp [pop_front_task, hq, hcb]

theorem choose_next_eq_no_switch (s : KernelState) (pp : Nat)
    (hpp : prevTaskPriority s = some pp) (hle : pp ≤ nextTaskPriority s) :
    choose_next_running_task s = some s := by
  simp [choose_next_running_task, hpp, hle]

theorem choose_next_eq_preempt (s : KernelState) (pp : Nat) (s1 : KernelState) (h1 : Nat)
    (hpp : prevTaskPriority s = some pp) (hlt : nextTaskPriority s < pp)
    (hlen : nextTaskPriority s < s.taskReadyQueue.length)
    (hpop : pop_front_task s (nextTaskPriority s) = some (s1, h1)) :
    choose_next_running_task s =
      (settle_prev_task s1 s.runningTask).map
        (fun s2 => { s2 with runningTask := some h1 }) := by
  cases hsp : settle_prev_task s1 s.runningTask with
  | none =>
    simp [choose_next_running_task, hpp, Nat.not_le.mpr hlt, hlen, hpop, hsp]
  | some s2 =>
    simp [choose_next_running_task, hpp, Nat.not_le.mpr hlt, hlen, hpop, hsp]

theorem choose_next_inv (s s' : KernelState) (hwf : WF s)
    (h : choose_next_running_task s = some s') :
    s' = s ∨
    ∃ s1 h1 s2, pop_front_task s (nextTaskPriority s) = some (s1, h1) ∧
      settle_prev_task s1 s.runningTask = some s2 ∧
      s' = { s2 with runningTask := some h1 } := by
  unfold choose_next_running_task at h
  split at h
  · exact absurd h (by simp)
  · rename_i pp hpp
    split at h
    · left; exact (Option.some_inj.mp h).symm
    · rename_i hle
      have hlt : nextTaskPriority s < pp := Nat.not_le.mp hle
      have hnp := nextTaskPriority_lt s pp hwf (prevTaskPriority_le s pp hwf hpp) hlt
      rw [if_pos hnp.1] at h
      cases hpop : pop_front_task s (nextTaskPriority s) with
      | none => rw [hpop] at h; simp at h
      | some pr =>
        obtain ⟨s1, h1⟩ := pr
        rw [hpop] at h
        simp only [Option.map_some'] at h
        cases hsp : settle_prev_task s1 s.runningTask with
        | none => rw [hsp] at h; simp at h
        | some s2 =>
          rw [hsp] at h
          simp only [Option.some_inj] at h
          exact Or.inr ⟨s1, h1, s2, rfl, hsp, h.symm⟩

theorem init_task_state_eq (s : KernelState) (i : Nat) (cb : TaskCb)
    (hcb : s.taskCbPool[i]? = some cb) :
    init_task_state s i = { s with
      taskCbPool := s.taskCbPool.set i { cb with ctxInstalled := true } } := by
  simp [init_task_state, hcb]

theorem WF_set_same_priority (s : KernelState) (i : Nat) (cb cb' : TaskCb)
    (hcb : s.taskCbPool[i]? = some cb) (hpri : cb'.priority = cb.priority)
    (hwf : WF s) :
    WF { s with taskCbPool := s.taskCbPool.set i cb' } := by
  refine ⟨hwf.1, ?_, ?_, ?_, hwf.2.2.2.2⟩
  · intro c hmem
    rcases List.mem_or_eq_of_mem_set hmem with hm | rfl
    · exact hwf.2.1 c hm
    · rw [hpri]; exact hwf.2.1 cb (List.getElem?_mem hcb)
  · intro q hq j hj
    simp only [List.length_set]
    exact hwf.2.2.1 q hq j hj
  · intro t htm
    simp only [List.length_set]
    exact hwf.2.2.2.1 t htm

theorem ReadyInv_set_same_st (s : KernelState) (i : Nat) (cb cb' : TaskCb)
    (hcb : s.taskCbPool[i]? = some cb) (hst : cb'.st = cb.st)
    (hinv : ReadyInv s) :
    ReadyInv { s with taskCbPool := s.taskCbPool.set i cb' } := by
  obtain ⟨hi, -⟩ := List.getElem?_eq_some.mp hcb
  refine ⟨hinv.1, ?_, ?_⟩
  · intro j hj
    simp only [List.length_set] at hj
    exact hinv.2.1 j hj
  · intro q hq j hj
    unfold taskSt
    by_cases hji : j = i
    · subst hji
      rw [List.getElem?_set_eq_of_lt _ hi]
      have hready := hinv.2.2 q hq j hj
      rw [taskSt, hcb] at hready
      simp at hready
      simp [hst, hready]
    · rw [List.getElem?_set_ne fun he => hji he.symm]
      exact hinv.2.2 q hq j hj

theorem init_task_inv (s s1 : KernelState) (i : Nat) (ev : List BootEvent)
    (h : init_task s i = some (s1, ev)) :
    ∃ cb, s.taskCbPool[i]? = some cb ∧
      ((cb.st = TaskSt.PendingActivation ∧ ev = [BootEvent.TaskCtxInstalled i] ∧
        make_ready (init_task_state s i) i = some s1) ∨
       (cb.st ≠ TaskSt.PendingActivation ∧ ev = [] ∧ s1 = s)) := by
  unfold init_task at h
  split at h
  · exact absurd h (by simp)
  · rename_i cb hcb
    split at h
    · rename_i hpend
      split at h
      · exact absurd h (by simp)
      · rename_i s2 hmr
        simp only [Option.some_inj, Prod.mk.injEq] at h
        exact ⟨cb, hcb, Or.inl ⟨hpend, h.2.symm, by rw [hmr, h.1]⟩⟩
    · rename_i hpend
      simp only [Option.some_inj, Prod.mk.injEq] at h
      exact ⟨cb, hcb, Or.inr ⟨hpend, h.2.symm, h.1.symm⟩⟩

theorem init_task_preserves (s s1 : KernelState) (i : Nat) (ev : List BootEvent)
    (hwf : WF s) (hinv : ReadyInv s) (h : init_task s i = some (s1, ev)) :
    WF s1 ∧ ReadyInv s1 := by
  obtain ⟨cb, hcb, hcase⟩ := init_task_inv s s1 i ev h
  rcases hcase with ⟨hpend, -, hmr⟩ | ⟨-, -, rfl⟩
  · have heq := init_task_state_eq s i cb hcb
    obtain ⟨hi, -⟩ := List.getElem?_eq_some.mp hcb
    have hwf2 : WF (init_task_state s i) := by
      rw [heq]; exact WF_set_same_priority s i cb _ hcb rfl hwf
    have hinv2 : ReadyInv (init_task_state s i) := by
      rw [heq]; exact ReadyInv_set_same_st s i cb _ hcb rfl hinv
    have hcb2 : (init_task_state s i).taskCbPool[i]?
        = some { cb with ctxInstalled := true } := by
      rw [heq]
      exact List.getElem?_set_eq_of_lt _ hi
    have hcnt : inBucketCount (init_task_state s i) i = 0 :=
      count_zero_of_not_ready _ i _ hinv2.2.2 hcb2 (by simp [hpend])
    exact ⟨make_ready_WF _ _ i hwf2 hmr,
      make_ready_ReadyInv _ _ i hwf2 hinv2 hcnt hmr⟩
  · exact ⟨hwf, hinv⟩

theorem init_tasks_preserves (idxs : List Nat) :
    ∀ s s' ev, WF s → ReadyInv s → init_tasks s idxs = some (s', ev) →
      WF s' ∧ ReadyInv s' := by
  induction idxs with
  | nil =>
    intro s s' ev hwf hinv h
    simp only [init_tasks, Option.some_inj, Prod.mk.injEq] at h
    rw [← h.1]
    exact ⟨hwf, hinv⟩
  | cons i rest ih =>
    intro s s' ev hwf hinv h
    simp only [init_tasks] at h
    cases hit : init_task s i with
    | none => rw [hit] at h; exact absurd h (by simp)
    | some p =>
      obtain ⟨s1, ev1⟩ := p
      simp only [hit] at h
      cases hrec : init_tasks s1 rest with
      | none => rw [hrec] at h; exact absurd h (by simp)
      | some p2 =>
        obtain ⟨s2, ev2⟩ := p2
        simp only [hrec, Option.some_inj, Prod.mk.injEq] at h
        obtain ⟨hp, hpre⟩ := init_task_preserves s s1 i ev1 hwf hinv hit
        have hres := ih s1 s2 ev2 hp hpre hrec
        rw [← h.1]
        exact hres

theorem choose_next_ReadyInv (s s' : KernelState)
    (hwf : WF s) (hinv : ReadyInv s)
    (h : choose_next_running_task s = some s') : ReadyInv s' := by
  rcases choose_next_inv s s' hwf h with rfl | ⟨s1, h1, s2, hpop, hsp, rfl⟩
  · exact hinv
  · have hwf1 := pop_front_task_WF s _ s1 h1 hwf hpop
    obtain ⟨hinv1, hcnt1⟩ := pop_ReadyInv s s1 _ h1 hwf hinv hpop
    rcases settle_prev_task_inv s1 s.runningTask s2 hsp with ⟨-, rfl⟩ |
      ⟨t, cbt, -, hcbt, hcase⟩
    · exact hinv1
    · rcases hcase with ⟨hst, hmr⟩ | ⟨-, rfl⟩
      · have hcnt : inBucketCount s1 t = 0 :=
          count_zero_of_not_ready s1 t cbt hinv1.2.2 hcbt (by simp [hst])
        exact make_ready_ReadyInv s1 s2 t hwf1 hinv1 hcnt hmr
      · exact hinv1

theorem choose_next_WF (s s' : KernelState)
    (hwf : WF s) (h : choose_next_running_task s = some s') : WF s' := by
  rcases choose_next_inv s s' hwf h with rfl | ⟨s1, h1, s2, hpop, hsp, rfl⟩
  · exact hwf
  · have hwf1 := pop_front_task_WF s _ s1 h1 hwf hpop
    have hwf2 : WF s2 := by
      rcases settle_prev_task_inv s1 s.runningTask s2 hsp with ⟨-, rfl⟩ |
        ⟨t, cbt, -, hcbt, hcase⟩
      · exact hwf1
      · rcases hcase with ⟨-, hmr⟩ | ⟨-, rfl⟩
        · exact make_ready_WF s1 s2 t hwf1 hmr
        · exact hwf1
    obtain ⟨rest, cb, hq, hcb, hs1⟩ := pop_front_task_inv s _ s1 h1 hpop
    have hh1 : h1 < s.taskCbPool.length :=
      hwf.2.2.1 _ (List.getElem?_mem hq) h1 (List.mem_cons_self _ _)
    have hlen : s2.taskCbPool.length = s.taskCbPool.length := by
      rcases settle_prev_task_inv s1 s.runningTask s2 hsp with ⟨-, rfl⟩ |
        ⟨t, cbt, -, hcbt, hcase⟩
      · rw [hs1]; simp
      · rcases hcase with ⟨-, hmr⟩ | ⟨-, rfl⟩
        · obtain ⟨c2, q2, -, -, rfl⟩ := make_ready_inv s1 t s2 hmr
          rw [hs1]; simp
        · rw [hs1]; simp
    refine ⟨hwf2.1, hwf2.2.1, hwf2.2.2.1, ?_, hwf2.2.2.2.2⟩
    intro t htm
    have ht : h1 = t := by simpa using Option.mem_def.mp htm
    subst ht
    show h1 < s2.taskCbPool.length
    rw [hlen]
    exact hh1

theorem task_activate_ReadyInv (s : KernelState) (id : Nat) (s' : KernelState)
    (y : Bool) (r : Except ActivateTaskError Unit)
    (hwf : WF s) (hinv : ReadyInv s)
    (h : task_activate s id = some (s', y, r)) : ReadyInv s' := by
  unfold task_activate at h
  split at h
  · simp only [Option.some_inj, Prod.mk.injEq] at h
    rw [← h.1]
    exact hinv
  · rename_i sl hsl
    have hslv : sl = { s with cpuLockActive := true } := by
      unfold lock_cpu at hsl
      split at hsl
      · exact absurd hsl (by simp)
      · exact (Except.ok.inj hsl).symm
    subst hslv
    split at h
    · simp only [Option.some_inj, Prod.mk.injEq] at h
      rw [← h.1]
      exact hinv
    · rename_i cb hcb
      unfold activate at h
      split at h
      · exact absurd h (by simp)
      · rename_i cb2 hcb2
        split at h
        · simp only [Option.some_inj, Prod.mk.injEq] at h
          rw [← h.1]
          exact hinv
        · rename_i hdor
          have hdormant : cb2.st = TaskSt.Dormant := by
            by_contra hc
            exact hdor hc
          cases hmr : make_ready
              (init_task_state { s with cpuLockActive := true } (id - 1)) (id - 1) with
          | none => simp only [hmr] at h; exact absurd h (by simp)
          | some s2 =>
            simp only [hmr] at h
            cases hun : unlock_cpu_and_check_preemption s2 with
            | none => simp only [hun] at h; exact absurd h (by simp)
            | some p =>
              obtain ⟨s3, y2⟩ := p
              simp only [hun] at h
              simp only [Option.some_inj, Prod.mk.injEq] at h
              obtain ⟨rfl, -⟩ := h
              have hwfL : WF ({ s with cpuLockActive := true } : KernelState) := hwf
              have hinvL : ReadyInv ({ s with cpuLockActive := true } : KernelState) := hinv
              have heq := init_task_state_eq { s with cpuLockActive := true } (id - 1) cb2 hcb2
              obtain ⟨hi, -⟩ := List.getElem?_eq_some.mp hcb2
              have hwf2 : WF (init_task_state { s with cpuLockActive := true } (id - 1)) := by
                rw [heq]
                exact WF_set_same_priority _ _ cb2 _ hcb2 rfl hwfL
              have hinv2 : ReadyInv
                  (init_task_state { s with cpuLockActive := true } (id - 1)) := by
                rw [heq]
                exact ReadyInv_set_same_st _ _ cb2 _ hcb2 rfl hinvL
              have hcbI : (init_task_state { s with cpuLockActive := true }
                  (id - 1)).taskCbPool[id - 1]?
                  = some { cb2 with ctxInstalled := true } := by
                rw [heq]
                exact List.getElem?_set_eq_of_lt _ hi
              have hcnt : inBucketCount
                  (init_task_state { s with cpuLockActive := true } (id - 1)) (id - 1) = 0 :=
                count_zero_of_not_ready _ _ _ hinv2.2.2 hcbI (by simp [hdormant])
              have hinv3 : ReadyInv s2 :=
                make_ready_ReadyInv _ _ _ hwf2 hinv2 hcnt hmr
              have hs3 : s3 = { s2 with cpuLockActive := false } := by
                unfold unlock_cpu_and_check_preemption at hun
                split at hun
                · exact absurd hun (by simp)
                · exact (Prod.mk.inj (Option.some_inj.mp hun)).1.symm
              rw [hs3]
              exact hinv3

theorem init_tasks_spec (idxs : List Nat) :
    ∀ s : KernelState, WF s → idxs.Nodup →
      (∀ i ∈ idxs, i < s.taskCbPool.length) →
      ∃ s' ev, init_tasks s idxs = some (s', ev) ∧
        ev = (idxs.filter
          (fun i => decide (taskSt s i = some TaskSt.PendingActivation))).map
          BootEvent.TaskCtxInstalled ∧
        s'.cpuLockActive = s.cpuLockActive ∧
        s'.runningTask = s.runningTask ∧
        s'.taskCbPool.length = s.taskCbPool.length ∧
        (∀ j cb, s.taskCbPool[j]? = some cb →
          (j ∈ idxs → cb.st = TaskSt.PendingActivation →
            s'.taskCbPool[j]? = some ⟨cb.priority, TaskSt.Ready, true⟩) ∧
          (j ∉ idxs ∨ cb.st ≠ TaskSt.PendingActivation →
            s'.taskCbPool[j]? = some cb)) := by
  induction idxs with
  | nil =>
    intro s hwf hnd hlt
    refine ⟨s, [], rfl, by simp, rfl, rfl, rfl, fun j cb hcb => ?_⟩
    exact ⟨fun hj => absurd hj (by simp), fun _ => hcb⟩
  | cons i rest ih =>
    intro s hwf hnd hlt
    have hi : i < s.taskCbPool.length := hlt i (by simp)
    obtain ⟨cb, hcb⟩ : ∃ cb, s.taskCbPool[i]? = some cb :=
      ⟨_, List.getElem?_eq_getElem hi⟩
    have hnotin : i ∉ rest := (List.nodup_cons.mp hnd).1
    have hndr : rest.Nodup := (List.nodup_cons.mp hnd).2
    by_cases hpend : cb.st = TaskSt.PendingActivation
    · have hpq : cb.priority < s.taskReadyQueue.length :=
        hwf.2.1 cb (List.getElem?_mem hcb)
      obtain ⟨q, hq⟩ : ∃ q, s.taskReadyQueue[cb.priority]? = some q :=
        ⟨_, List.getElem?_eq_getElem hpq⟩
      have hpoolA : (s.taskCbPool.set i
          { cb with st := TaskSt.PendingActivation, ctxInstalled := true })[i]?
          = some { cb with st := TaskSt.PendingActivation, ctxInstalled := true } :=
        List.getElem?_set_eq_of_lt _ hi
      set s1 : KernelState := { s with
          taskCbPool := s.taskCbPool.set i
            { cb with st := TaskSt.Ready, ctxInstalled := true },
          taskReadyQueue := s.taskReadyQueue.set cb.priority (q ++ [i]),
          taskReadyBitmap := s.taskReadyBitmap.set cb.priority true } with hs1
      have hP : s1.taskCbPool = s.taskCbPool.set i
          { cb with st := TaskSt.Ready, ctxInstalled := true } := by rw [hs1]
      have hQ : s1.taskReadyQueue
          = s.taskReadyQueue.set cb.priority (q ++ [i]) := by rw [hs1]
      have hR : s1.runningTask = s.runningTask := by rw [hs1]
      have hL : s1.cpuLockActive = s.cpuLockActive := by rw [hs1]
      have hit : init_task s i = some (s1, [BootEvent.TaskCtxInstalled i]) := by
        rw [hs1]
        unfold init_task make_ready init_task_state
        simp [hcb, hpend, hpoolA, hq, List.set_set]
      have hwf1 : WF s1 := by
        refine ⟨?_, ?_, ?_, ?_, ?_⟩
        · rw [hs1]
          simp [hwf.1]
        · intro c hmem
          rw [hP] at hmem
          rw [hQ, List.length_set]
          rcases List.mem_or_eq_of_mem_set hmem with hm | rfl
          · exact hwf.2.1 c hm
          · exact hpq
        · intro q' hq' j hj
          rw [hQ] at hq'
          rw [hP, List.length_set]
          rcases List.mem_or_eq_of_mem_set hq' with hm | rfl
          · exact hwf.2.2.1 q' hm j hj
          · rcases List.mem_append.mp hj with hj1 | hj1
            · exact hwf.2.2.1 q (List.getElem?_mem hq) j hj1
            · rw [List.mem_singleton] at hj1
              subst hj1
              exact hi
        · intro t htm
          rw [hR] at htm
          rw [hP, List.length_set]
          exact hwf.2.2.2.1 t htm
        · rw [hQ, List.length_set]
          exact hwf.2.2.2.2
      have hltr : ∀ j ∈ rest, j < s1.taskCbPool.length := by
        intro j hj
        rw [hP, List.length_set]
        exact hlt j (List.mem_cons_of_mem _ hj)
      obtain ⟨s', ev, hrec, hev, hl2, hr2, hlen2, heff⟩ := ih s1 hwf1 hndr hltr
      have hpredi : (decide (taskSt s i = some TaskSt.PendingActivation)) = true := by
        rw [taskSt, hcb]
        simp [hpend]
      have hfilter : rest.filter
            (fun j => decide (taskSt s1 j = some TaskSt.PendingActivation))
          = rest.filter
            (fun j => decide (taskSt s j = some TaskSt.PendingActivation)) := by
        apply List.filter_congr
        intro j hj
        have hji : i ≠ j := fun he => hnotin (he ▸ hj)
        rw [taskSt, taskSt, hP, List.getElem?_set_ne hji]
      refine ⟨s', BootEvent.TaskCtxInstalled i :: ev, ?_, ?_, ?_, ?_, ?_, ?_⟩
      · unfold init_tasks
        simp [hit, hrec]
      · rw [hev, hfilter]
        simp [List.filter_cons, hpredi]
      · rw [hl2, hL]
      · rw [hr2, hR]
      · rw [hlen2, hP, List.length_set]
      · intro j cb' hcb'
        by_cases hji : j = i
        · subst hji
          rw [hcb] at hcb'
          obtain rfl : cb = cb' := Option.some_inj.mp hcb'
          constructor
          · intro _ _
            have hs1i : s1.taskCbPool[j]? = some
                { cb with st := TaskSt.Ready, ctxInstalled := true } := by
              rw [hP]
              exact List.getElem?_set_eq_of_lt _ hi
            exact (heff j _ hs1i).2 (Or.inl hnotin)
          · intro hcase
            rcases hcase with hni | hst
            · exact absurd (List.mem_cons_self j rest) hni
            · exact absurd hpend hst
        · have hs1j : s1.taskCbPool[j]? = some cb' := by
            rw [hP, List.getElem?_set_ne fun he => hji he.symm]
            exact hcb'
          obtain ⟨h1, h2⟩ := heff j cb' hs1j
          constructor
          · intro hj hst
            rcases List.mem_cons.mp hj with he | hj2
            · exact absurd he hji
            · exact h1 hj2 hst
          · intro hcase
            apply h2
            rcases hcase with hni | hst
            · exact Or.inl fun hj => hni (List.mem_cons_of_mem _ hj)
            · exact Or.inr hst
    · have hit : init_task s i = some (s, []) := by
        unfold init_task
        simp [hcb, hpend]
      obtain ⟨s', ev, hrec, hev, hl, hr, hlen, heff⟩ := ih s hwf hndr
        (fun j hj => hlt j (List.mem_cons_of_mem _ hj))
      refine ⟨s', ev, ?_, ?_, hl, hr, hlen, ?_⟩
      · unfold init_tasks
        simp [hit, hrec]
      · rw [hev]
        have hpredi : (decide (taskSt s i = some TaskSt.PendingActivation)) = false := by
          rw [taskSt, hcb]
          simpa using hpend
        simp [List.filter_cons, hpredi]
      · intro j cb' hcb'
        obtain ⟨h1, h2⟩ := heff j cb' hcb'
        constructor
        · intro hj hst
          rcases List.mem_cons.mp hj with rfl | hj2
          · rw [hcb] at hcb'
            obtain rfl : cb = cb' := Option.some_inj.mp hcb'
            exact absurd hst hpend
          · exact h1 hj2 hst
        · intro hcase
          apply h2
          rcases hcase with hni | hst
          · exact Or.inl (fun hj => hni (List.mem_cons_of_mem _ hj))
          · exact Or.inr hst

theorem wait_loop_inv (t : Nat) (env : WaitEnv) (henv : EnvOK env) :
    ∀ fuel k s s', MidInv s → wait_loop t env fuel k s = some s' →
      MidInv s' ∧ taskSt s' t = some TaskSt.Running := by
  intro fuel
  induction fuel with
  | zero =>
    intro k s s' hmid h
    simp [wait_loop] at h
  | succ fuel ih =>
    intro k s s' hmid h
    have hm3 : MidInv ({ env k { s with cpuLockActive := false } with
        cpuLockActive := true } : KernelState) := by
      have hl : MidInv ({ s with cpuLockActive := false } : KernelState) := hmid
      exact henv k { s with cpuLockActive := false } hl
    have h' : (match ({ env k { s with cpuLockActive := false } with
          cpuLockActive := true } : KernelState).taskCbPool[t]? with
        | none => none
        | some cb =>
          if cb.st = TaskSt.Running then
            some ({ env k { s with cpuLockActive := false } with
              cpuLockActive := true } : KernelState)
          else wait_loop t env fuel (k + 1)
            ({ env k { s with cpuLockActive := false } with
              cpuLockActive := true } : KernelState)) = some s' := h
    cases hcb : ({ env k { s with cpuLockActive := false } with
        cpuLockActive := true } : KernelState).taskCbPool[t]? with
    | none =>
      simp only [hcb] at h'
      exact absurd h' (by simp)
    | some cb =>
      simp only [hcb] at h'
      by_cases hrunb : cb.st = TaskSt.Running
      · rw [if_pos hrunb] at h'
        obtain rfl : _ = s' := Option.some_inj.mp h'
        refine ⟨hm3, ?_⟩
        rw [taskSt, hcb]
        simp [hrunb]
      · rw [if_neg hrunb] at h'
        exact ih (k + 1) _ s' hm3 h'

/-- A line number outside the supported range, in particular any line
below the platform base, maps under the wrapping subtraction to an
index above maxNum, so the range check catches it. -/
theorem usizeWrapSub_out_of_range (line start maxNum : Nat)
    (hline : line < 2 ^ 32) (hP : start + maxNum < 2 ^ 32)
    (hout : line < start ∨ line > start + maxNum) :
    usizeWrapSub line start > maxNum := by
  unfold usizeWrapSub
  have hS : start < 2 ^ 32 := by omega
  rw [Nat.mod_eq_of_lt hline, Nat.mod_eq_of_lt hS]
  rcases hout with h | h
  · have hlt : line + (2 ^ 32 - start) < 2 ^ 32 := by omega
    rw [Nat.mod_eq_of_lt hlt]; omega
  · have heq : line + (2 ^ 32 - start) = (line - start) + 2 ^ 32 := by omega
    rw [heq, Nat.add_mod_right, Nat.mod_eq_of_lt (by omega : line - start < 2 ^ 32)]
    omega

/-! ### C9: interrupt-line range checks -/

/-- C9: for every interrupt number outside the range the controller
supports — including numbers below the platform's first external
interrupt number, which the PLIC driver maps by wrapping subtraction to
an index far above maxNum — every interrupt-line operation of the PLIC
and Arm-M drivers fails with BadParam, and the operations a driver does
not implement (pend and clear on the PLIC, via the PortInterrupts
defaults) fail with NotSupported.  An erroneous return carries no new
register state: the modelled operations build registers only on the Ok
path, mirroring the drivers, which return before any register access. -/
theorem C9_interrupt_line_range_check
    (P : PlicParams) (regs : PlicRegs) (line : Nat) (priority : Int)
    (Q : ArmMParams) (nv : NvicState) (num : Nat)
    (hline : line < 2 ^ 32)
    (hP : P.platformStart + P.maxNum < 2 ^ 32)
    (hout : line < P.platformStart ∨ line > P.platformStart + P.maxNum)
    (hnum : num < Q.numStart ∨ Q.numEnd ≤ num) :
    plic_set_interrupt_line_priority P regs line priority =
      Except.error InterruptLineError.BadParam ∧
    plic_enable_interrupt_line P regs line = Except.error InterruptLineError.BadParam ∧
    plic_disable_interrupt_line P regs line = Except.error InterruptLineError.BadParam ∧
    plic_is_interrupt_line_pending P regs line = Except.error InterruptLineError.BadParam ∧
    default_pend_interrupt_line line = Except.error InterruptLineError.NotSupported ∧
    default_clear_interrupt_line line = Except.error InterruptLineError.NotSupported ∧
    armm_set_interrupt_line_priority Q nv num priority =
      Except.error InterruptLineError.BadParam ∧
    armm_enable_interrupt_line Q nv num = Except.error InterruptLineError.BadParam ∧
    armm_disable_interrupt_line Q nv num = Except.error InterruptLineError.BadParam ∧
    armm_pend_interrupt_line Q nv num = Except.error InterruptLineError.BadParam ∧
    armm_clear_interrupt_line Q nv num = Except.error InterruptLineError.BadParam ∧
    armm_is_interrupt_line_pending Q nv num = Except.error InterruptLineError.BadParam := by
  have hidx : usizeWrapSub line P.platformStart > P.maxNum :=
    usizeWrapSub_out_of_range line P.platformStart P.maxNum hline hP hout
  have hnr : ¬(Q.numStart ≤ num ∧ num < Q.numEnd) := by omega
  refine ⟨?_, ?_, ?_, ?_, rfl, rfl, ?_, ?_, ?_, ?_, ?_, ?_⟩
  · unfold plic_set_interrupt_line_priority
    rw [if_pos (Or.inl hidx)]
  · unfold plic_enable_interrupt_line
    rw [if_pos hidx]
  · unfold plic_disable_interrupt_line
    rw [if_pos hidx]
  · unfold plic_is_interrupt_line_pending
    rw [if_pos hidx]
  · unfold armm_set_interrupt_line_priority
    rw [if_pos (Or.inr hnr)]
  · unfold armm_enable_interrupt_line
    rw [if_pos hnr]
  · unfold armm_disable_interrupt_line
    rw [if_pos hnr]
  · unfold armm_pend_interrupt_line
    rw [if_pos hnr]
  · unfold armm_clear_interrupt_line
    rw [if_pos hnr]
  · unfold armm_is_interrupt_line_pending
    rw [if_pos hnr]

theorem C9_interrupt_line_range_check_witness :
    plic_set_interrupt_line_priority ⟨16, 127, 7⟩ ⟨[], [], []⟩ 3 5 =
      Except.error InterruptLineError.BadParam ∧
    plic_enable_interrupt_line ⟨16, 127, 7⟩ ⟨[], [], []⟩ 3 =
      Except.error InterruptLineError.BadParam ∧
    plic_disable_interrupt_line ⟨16, 127, 7⟩ ⟨[], [], []⟩ 3 =
      Except.error InterruptLineError.BadParam ∧
    plic_is_interrupt_line_pending ⟨16, 127, 7⟩ ⟨[], [], []⟩ 3 =
      Except.error InterruptLineError.BadParam ∧
    default_pend_interrupt_line 3 = Except.error InterruptLineError.NotSupported ∧
    default_clear_interrupt_line 3 = Except.error InterruptLineError.NotSupported ∧
    armm_set_interrupt_line_priority ⟨0, 256, 16, 15, 0, 256⟩
      ⟨[], [], [], false, 0⟩ 300 5 = Except.error InterruptLineError.BadParam ∧
    armm_enable_interrupt_line ⟨0, 256, 16, 15, 0, 256⟩ ⟨[], [], [], false, 0⟩ 300 =
      Except.error InterruptLineError.BadParam ∧
    armm_disable_interrupt_line ⟨0, 256, 16, 15, 0, 256⟩ ⟨[], [], [], false, 0⟩ 300 =
      Except.error InterruptLineError.BadParam ∧
    armm_pend_interrupt_line ⟨0, 256, 16, 15, 0, 256⟩ ⟨[], [], [], false, 0⟩ 300 =
      Except.error InterruptLineError.BadParam ∧
    armm_clear_interrupt_line ⟨0, 256, 16, 15, 0, 256⟩ ⟨[], [], [], false, 0⟩ 300 =
      Except.error InterruptLineError.BadParam ∧
    armm_is_interrupt_line_pending ⟨0, 256, 16, 15, 0, 256⟩ ⟨[], [], [], false, 0⟩ 300 =
      Except.error InterruptLineError.BadParam :=
  C9_interrupt_line_range_check ⟨16, 127, 7⟩ ⟨[], [], []⟩ 3 5
    ⟨0, 256, 16, 15, 0, 256⟩ ⟨[], [], [], false, 0⟩ 300
    (by decide) (by decide) (Or.inl (by decide)) (Or.inr (by decide))

theorem prevTaskPriority_running (s : KernelState) (t : Nat) (cbt : TaskCb)
    (hr : s.runningTask = some t) (hcb : s.taskCbPool[t]? = some cbt)
    (hst : cbt.st = TaskSt.Running) :
    prevTaskPriority s = some cbt.priority := by
  simp [prevTaskPriority, hr, hcb, hst]

theorem prevTaskPriority_exists (s : KernelState) (hwf : WF s) :
    ∃ pp, prevTaskPriority s = some pp := by
  cases hr : s.runningTask with
  | none => exact ⟨usizeMax, by simp [prevTaskPriority, hr]⟩
  | some t =>
    have ht : t < s.taskCbPool.length := hwf.2.2.2.1 t (Option.mem_def.mpr hr)
    obtain ⟨cb, hcb⟩ : ∃ cb, s.taskCbPool[t]? = some cb :=
      ⟨_, List.getElem?_eq_getElem ht⟩
    exact ⟨if cb.st = TaskSt.Running then cb.priority else usizeMax,
      by simp [prevTaskPriority, hr, hcb]⟩

/-! ### C1: choose_next_running_task -/

/-- C1: for every CPU-locked well-formed scheduler state,
choose_next_running_task computes prev_pri as the running task's
priority when it exists and is Running (usize::max_value() otherwise)
and next_pri as the lowest set bit of the ready bitmap
(usize::max_value() when empty); it returns with the state completely
unchanged when prev_pri ≤ next_pri (non-strict, so a newly ready task
of equal priority never displaces the running task); otherwise it pops
the head of the ready queue at next_pri, clears that bitmap bit exactly
when the bucket became empty, sets the popped task Running, moves a
Running previous task to Ready via make_ready (appending it to its
priority's bucket and setting that bit) while leaving a Waiting one
untouched, and stores the popped task as running_task.  The result
states are given in full, so nothing else changes. -/
theorem C1_choose_next_running_task (s : KernelState)
    (hlock : s.cpuLockActive = true) (hwf : WF s) (hinv : ReadyInv s) :
    ∃ pp, prevTaskPriority s = some pp ∧
      (pp ≤ nextTaskPriority s → choose_next_running_task s = some s) ∧
      (nextTaskPriority s < pp →
        ∃ h1 rest cbh,
          s.taskReadyQueue[nextTaskPriority s]? = some (h1 :: rest) ∧
          s.taskCbPool[h1]? = some cbh ∧
          (s.runningTask = none →
            choose_next_running_task s = some { s with
              taskCbPool := s.taskCbPool.set h1 { cbh with st := TaskSt.Running },
              taskReadyQueue := s.taskReadyQueue.set (nextTaskPriority s) rest,
              taskReadyBitmap := if rest.isEmpty
                then s.taskReadyBitmap.set (nextTaskPriority s) false
                else s.taskReadyBitmap,
              runningTask := some h1 }) ∧
          (∀ t cbt, s.runningTask = some t → s.taskCbPool[t]? = some cbt →
            (cbt.st = TaskSt.Waiting →
              choose_next_running_task s = some { s with
                taskCbPool := s.taskCbPool.set h1 { cbh with st := TaskSt.Running },
                taskReadyQueue := s.taskReadyQueue.set (nextTaskPriority s) rest,
                taskReadyBitmap := if rest.isEmpty
                  then s.taskReadyBitmap.set (nextTaskPriority s) false
                  else s.taskReadyBitmap,
                runningTask := some h1 }) ∧
            (cbt.st = TaskSt.Running →
              ∃ qq, s.taskReadyQueue[cbt.priority]? = some qq ∧
                choose_next_running_task s = some { s with
                  taskCbPool := (s.taskCbPool.set h1
                    { cbh with st := TaskSt.Running }).set t
                    { cbt with st := TaskSt.Ready },
                  taskReadyQueue := (s.taskReadyQueue.set (nextTaskPriority s)
                    rest).set cbt.priority (qq ++ [t]),
                  taskReadyBitmap := (if rest.isEmpty
                    then s.taskReadyBitmap.set (nextTaskPriority s) false
                    else s.taskReadyBitmap).set cbt.priority true,
                  runningTask := some h1 }))) := by
  obtain ⟨pp, hpp⟩ := prevTaskPriority_exists s hwf
  refine ⟨pp, hpp, fun hle => choose_next_eq_no_switch s pp hpp hle, fun hlt => ?_⟩
  have hnp := nextTaskPriority_lt s pp hwf (prevTaskPriority_le s pp hwf hpp) hlt
  obtain ⟨h1, rest, hq⟩ := bucket_nonempty_of_bit s _ hinv.1 hnp.1 hnp.2
  have hh1mem : h1 ∈ (h1 :: rest) := List.mem_cons_self _ _
  have hh1 : h1 < s.taskCbPool.length :=
    hwf.2.2.1 _ (List.getElem?_mem hq) h1 hh1mem
  obtain ⟨cbh, hcbh⟩ : ∃ cb, s.taskCbPool[h1]? = some cb :=
    ⟨_, List.getElem?_eq_getElem hh1⟩
  have hh1ready : cbh.st = TaskSt.Ready := by
    have := hinv.2.2 _ (List.getElem?_mem hq) h1 hh1mem
    rw [taskSt, hcbh] at this
    simpa using this
  have hpop := pop_front_task_eq s (nextTaskPriority s) h1 rest cbh hq hcbh
  have hmain := choose_next_eq_preempt s pp _ h1 hpp hlt hnp.1 hpop
  refine ⟨h1, rest, cbh, hq, hcbh, ?_, ?_⟩
  · intro hnone
    rw [hmain, hnone, settle_prev_task_none]
    rfl
  · intro t cbt hr hcbt
    have hth1 : cbt.st ≠ TaskSt.Ready → t ≠ h1 := by
      intro hco he
      subst he
      rw [hcbh] at hcbt
      obtain rfl : cbh = cbt := Option.some_inj.mp hcbt
      exact hco hh1ready
    constructor
    · intro hstw
      have hne : t ≠ h1 := hth1 (by simp [hstw])
      have hcbt1 : (s.taskCbPool.set h1 { cbh with st := TaskSt.Running })[t]?
          = some cbt := by
        rw [List.getElem?_set_ne hne.symm]
        exact hcbt
      rw [hmain, hr, settle_prev_task_waiting _ t cbt hcbt1 hstw]
      rfl
    · intro hstr
      have hne : t ≠ h1 := hth1 (by simp [hstr])
      have hppt : pp = cbt.priority := by
        have hrun := prevTaskPriority_running s t cbt hr hcbt hstr
        rw [hpp] at hrun
        exact Option.some_inj.mp hrun
      have hplt : cbt.priority < s.taskReadyQueue.length :=
        hwf.2.1 cbt (List.getElem?_mem hcbt)
      obtain ⟨qq, hqq⟩ : ∃ q, s.taskReadyQueue[cbt.priority]? = some q :=
        ⟨_, List.getElem?_eq_getElem hplt⟩
      refine ⟨qq, hqq, ?_⟩
      have hcbt1 : (s.taskCbPool.set h1 { cbh with st := TaskSt.Running })[t]?
          = some cbt := by
        rw [List.getElem?_set_ne hne.symm]
        exact hcbt
      have hpne : nextTaskPriority s ≠ cbt.priority := by omega
      have hq1 : (s.taskReadyQueue.set (nextTaskPriority s) rest)[cbt.priority]?
          = some qq := by
        rw [List.getElem?_set_ne hpne]
        exact hqq
      rw [hmain, hr, settle_prev_task_running _ t cbt hcbt1 hstr,
        make_ready_eq _ t cbt qq hcbt1 hq1]
      rfl

theorem C1_choose_next_running_task_witness :
    ∃ pp, prevTaskPriority (⟨[⟨1, TaskSt.Running, true⟩, ⟨0, TaskSt.Ready, true⟩], some 0, [[1], []], [true, false], true⟩ : KernelState) = some pp ∧
      (pp ≤ nextTaskPriority (⟨[⟨1, TaskSt.Running, true⟩, ⟨0, TaskSt.Ready, true⟩], some 0, [[1], []], [true, false], true⟩ : KernelState) → choose_next_running_task (⟨[⟨1, TaskSt.Running, true⟩, ⟨0, TaskSt.Ready, true⟩], some 0, [[1], []], [true, false], true⟩ : KernelState) = some (⟨[⟨1, TaskSt.Running, true⟩, ⟨0, TaskSt.Ready, true⟩], some 0, [[1], []], [true, false], true⟩ : KernelState)) ∧
      (nextTaskPriority (⟨[⟨1, TaskSt.Running, true⟩, ⟨0, TaskSt.Ready, true⟩], some 0, [[1], []], [true, false], true⟩ : KernelState) < pp →
        ∃ h1 rest cbh,
          (⟨[⟨1, TaskSt.Running, true⟩, ⟨0, TaskSt.Ready, true⟩], some 0, [[1], []], [true, false], true⟩ : KernelState).taskReadyQueue[nextTaskPriority (⟨[⟨1, TaskSt.Running, true⟩, ⟨0, TaskSt.Ready, true⟩], some 0, [[1], []], [true, false], true⟩ : KernelState)]? = some (h1 :: rest) ∧
          (⟨[⟨1, TaskSt.Running, true⟩, ⟨0, TaskSt.Ready, true⟩], some 0, [[1], []], [true, false], true⟩ : KernelState).taskCbPool[h1]? = some cbh ∧
          ((⟨[⟨1, TaskSt.Running, true⟩, ⟨0, TaskSt.Ready, true⟩], some 0, [[1], []], [true, false], true⟩ : KernelState).runningTask = none →
            choose_next_running_task (⟨[⟨1, TaskSt.Running, true⟩, ⟨0, TaskSt.Ready, true⟩], some 0, [[1], []], [true, false], true⟩ : KernelState) = some { (⟨[⟨1, TaskSt.Running, true⟩, ⟨0, TaskSt.Ready, true⟩], some 0, [[1], []], [true, false], true⟩ : KernelState) with
              taskCbPool := (⟨[⟨1, TaskSt.Running, true⟩, ⟨0, TaskSt.Ready, true⟩], some 0, [[1], []], [true, false], true⟩ : KernelState).taskCbPool.set h1 { cbh with st := TaskSt.Running },
              taskReadyQueue := (⟨[⟨1, TaskSt.Running, true⟩, ⟨0, TaskSt.Ready, true⟩], some 0, [[1], []], [true, false], true⟩ : KernelState).taskReadyQueue.set (nextTaskPriority (⟨[⟨1, TaskSt.Running, true⟩, ⟨0, TaskSt.Ready, true⟩], some 0, [[1], []], [true, false], true⟩ : KernelState)) rest,
              taskReadyBitmap := if rest.isEmpty
                then (⟨[⟨1, TaskSt.Running, true⟩, ⟨0, TaskSt.Ready, true⟩], some 0, [[1], []], [true, false], true⟩ : KernelState).taskReadyBitmap.set (nextTaskPriority (⟨[⟨1, TaskSt.Running, true⟩, ⟨0, TaskSt.Ready, true⟩], some 0, [[1], []], [true, false], true⟩ : KernelState)) false
                else (⟨[⟨1, TaskSt.Running, true⟩, ⟨0, TaskSt.Ready, true⟩], some 0, [[1], []], [true, false], true⟩ : KernelState).taskReadyBitmap,
              runningTask := some h1 }) ∧
          (∀ t cbt, (⟨[⟨1, TaskSt.Running, true⟩, ⟨0, TaskSt.Ready, true⟩], some 0, [[1], []], [true, false], true⟩ : KernelState).runningTask = some t → (⟨[⟨1, TaskSt.Running, true⟩, ⟨0, TaskSt.Ready, true⟩], some 0, [[1], []], [true, false], true⟩ : KernelState).taskCbPool[t]? = some cbt →
            (cbt.st = TaskSt.Waiting →
              choose_next_running_task (⟨[⟨1, TaskSt.Running, true⟩, ⟨0, TaskSt.Ready, true⟩], some 0, [[1], []], [true, false], true⟩ : KernelState) = some { (⟨[⟨1, TaskSt.Running, true⟩, ⟨0, TaskSt.Ready, true⟩], some 0, [[1], []], [true, false], true⟩ : KernelState) with
                taskCbPool := (⟨[⟨1, TaskSt.Running, true⟩, ⟨0, TaskSt.Ready, true⟩], some 0, [[1], []], [true, false], true⟩ : KernelState).taskCbPool.set h1 { cbh with st := TaskSt.Running },
                taskReadyQueue := (⟨[⟨1, TaskSt.Running, true⟩, ⟨0, TaskSt.Ready, true⟩], some 0, [[1], []], [true, false], true⟩ : KernelState).taskReadyQueue.set (nextTaskPriority (⟨[⟨1, TaskSt.Running, true⟩, ⟨0, TaskSt.Ready, true⟩], some 0, [[1], []], [true, false], true⟩ : KernelState)) rest,
                taskReadyBitmap := if rest.isEmpty
                  then (⟨[⟨1, TaskSt.Running, true⟩, ⟨0, TaskSt.Ready, true⟩], some 0, [[1], []], [true, false], true⟩ : KernelState).taskReadyBitmap.set (nextTaskPriority (⟨[⟨1, TaskSt.Running, true⟩, ⟨0, TaskSt.Ready, true⟩], some 0, [[1], []], [true, false], true⟩ : KernelState)) false
                  else (⟨[⟨1, TaskSt.Running, true⟩, ⟨0, TaskSt.Ready, true⟩], some 0, [[1], []], [true, false], true⟩ : KernelState).taskReadyBitmap,
                runningTask := some h1 }) ∧
            (cbt.st = TaskSt.Running →
              ∃ qq, (⟨[⟨1, TaskSt.Running, true⟩, ⟨0, TaskSt.Ready, true⟩], some 0, [[1], []], [true, false], true⟩ : KernelState).taskReadyQueue[cbt.priority]? = some qq ∧
                choose_next_running_task (⟨[⟨1, TaskSt.Running, true⟩, ⟨0, TaskSt.Ready, true⟩], some 0, [[1], []], [true, false], true⟩ : KernelState) = some { (⟨[⟨1, TaskSt.Running, true⟩, ⟨0, TaskSt.Ready, true⟩], some 0, [[1], []], [true, false], true⟩ : KernelState) with
                  taskCbPool := ((⟨[⟨1, TaskSt.Running, true⟩, ⟨0, TaskSt.Ready, true⟩], some 0, [[1], []], [true, false], true⟩ : KernelState).taskCbPool.set h1
                    { cbh with st := TaskSt.Running }).set t
                    { cbt with st := TaskSt.Ready },
                  taskReadyQueue := ((⟨[⟨1, TaskSt.Running, true⟩, ⟨0, TaskSt.Ready, true⟩], some 0, [[1], []], [true, false], true⟩ : KernelState).taskReadyQueue.set (nextTaskPriority (⟨[⟨1, TaskSt.Running, true⟩, ⟨0, TaskSt.Ready, true⟩], some 0, [[1], []], [true, false], true⟩ : KernelState))
                    rest).set cbt.priority (qq ++ [t]),
                  taskReadyBitmap := (if rest.isEmpty
                    then (⟨[⟨1, TaskSt.Running, true⟩, ⟨0, TaskSt.Ready, true⟩], some 0, [[1], []], [true, false], true⟩ : KernelState).taskReadyBitmap.set (nextTaskPriority (⟨[⟨1, TaskSt.Running, true⟩, ⟨0, TaskSt.Ready, true⟩], some 0, [[1], []], [true, false], true⟩ : KernelState)) false
                    else (⟨[⟨1, TaskSt.Running, true⟩, ⟨0, TaskSt.Ready, true⟩], some 0, [[1], []], [true, false], true⟩ : KernelState).taskReadyBitmap).set cbt.priority true,
                  runningTask := some h1 }))) :=
  C1_choose_next_running_task (⟨[⟨1, TaskSt.Running, true⟩, ⟨0, TaskSt.Ready, true⟩], some 0, [[1], []], [true, false], true⟩ : KernelState) rfl (by decide) (by decide)

/-! ### C8: the ready-queue representation invariant -/

/-- C8: the ready-queue representation invariant — bit p of the bitmap
is set iff bucket p is non-empty, every TCB is linked into at most one
bucket, and a TCB in a bucket is in the Ready state — is preserved by
every scheduler operation: by make_ready (whose contract requires the
task not to be linked into any bucket yet), by choose_next_running_task,
by Task::activate, and by boot. -/
theorem C8_ready_queue_invariant :
    (∀ s s' i, WF s → ReadyInv s → inBucketCount s i = 0 →
      make_ready s i = some s' → ReadyInv s') ∧
    (∀ s s', WF s → ReadyInv s → choose_next_running_task s = some s' → ReadyInv s') ∧
    (∀ s id s' y r, WF s → ReadyInv s →
      task_activate s id = some (s', y, r) → ReadyInv s') ∧
    (∀ hooks s s' ev, WF s → ReadyInv s → boot hooks s = some (s', ev) → ReadyInv s') := by
  refine ⟨?_, ?_, ?_, ?_⟩
  · intro s s' i hwf hinv hcnt h
    exact make_ready_ReadyInv s s' i hwf hinv hcnt h
  · intro s s' hwf hinv h
    exact choose_next_ReadyInv s s' hwf hinv h
  · intro s id s' y r hwf hinv h
    exact task_activate_ReadyInv s id s' y r hwf hinv h
  · intro hooks s s' ev hwf hinv h
    unfold boot at h
    cases hit : init_tasks s (List.range s.taskCbPool.length) with
    | none => simp only [hit] at h; exact absurd h (by simp)
    | some p =>
      obtain ⟨s1, ev1⟩ := p
      simp only [hit, Option.some_inj, Prod.mk.injEq] at h
      rw [← h.1]
      exact (init_tasks_preserves _ s s1 ev1 hwf hinv hit).2

theorem C8_ready_queue_invariant_witness :
    ReadyInv ⟨[⟨0, TaskSt.Ready, false⟩], none, [[0]], [true], true⟩ ∧
    ReadyInv ⟨[⟨1, TaskSt.Ready, true⟩, ⟨0, TaskSt.Running, true⟩], some 1,
      [[], [0]], [false, true], true⟩ ∧
    ReadyInv ⟨[⟨1, TaskSt.Ready, true⟩, ⟨2, TaskSt.Running, true⟩], some 1,
      [[], [0], []], [false, true, false], false⟩ ∧
    ReadyInv ⟨[⟨1, TaskSt.Ready, true⟩, ⟨2, TaskSt.Dormant, false⟩], none,
      [[], [0], []], [false, true, false], true⟩ :=
  ⟨C8_ready_queue_invariant.1
      ⟨[⟨0, TaskSt.Dormant, false⟩], none, [[]], [false], true⟩ _ 0
      (by decide) (by decide) (by decide) rfl,
   C8_ready_queue_invariant.2.1
      ⟨[⟨1, TaskSt.Running, true⟩, ⟨0, TaskSt.Ready, true⟩], some 0,
        [[1], []], [true, false], true⟩ _
      (by decide) (by decide) rfl,
   C8_ready_queue_invariant.2.2.1
      ⟨[⟨1, TaskSt.Dormant, false⟩, ⟨2, TaskSt.Running, true⟩], some 1,
        [[], [], []], [false, false, false], false⟩ 1 _ true (Except.ok ())
      (by decide) (by decide) rfl,
   C8_ready_queue_invariant.2.2.2 [7, 8]
      ⟨[⟨1, TaskSt.PendingActivation, false⟩, ⟨2, TaskSt.Dormant, false⟩], none,
        [[], [], []], [false, false, false], true⟩ _
      [BootEvent.TaskCtxInstalled 0, BootEvent.TimeoutInit, BootEvent.TimerInit,
        BootEvent.InterruptAttrInit, BootEvent.StartupHook 7, BootEvent.StartupHook 8,
        BootEvent.DispatchFirstTask]
      (by decide) (by decide) rfl⟩

/-! ### C3: task activation -/

/-- C3: Task::activate on a valid handle, entered with CPU-Lock
inactive.  When the target task is not Dormant it fails with
QueueOverflow and the kernel state is completely unchanged.  When the
target is Dormant it installs the initial saved context, transitions
the task to Ready — appending it to the ready queue of its priority and
setting that bitmap bit, touching no other task, bucket, bit, or the
running-task cell — releases CPU-Lock with a preemption check (the
returned flag y records the yield_cpu call, made exactly when the
lowest ready priority is strictly below the running task's), and
returns Ok. -/
theorem C3_task_activate (s : KernelState) (id : Nat) (cb : TaskCb)
    (hlock : s.cpuLockActive = false) (hwf : WF s)
    (hcb : s.taskCbPool[id - 1]? = some cb) :
    (cb.st ≠ TaskSt.Dormant →
      task_activate s id = some (s, false, Except.error ActivateTaskError.QueueOverflow)) ∧
    (cb.st = TaskSt.Dormant →
      ∃ s' y, task_activate s id = some (s', y, Except.ok ()) ∧
        taskSt s' (id - 1) = some TaskSt.Ready ∧
        (∃ cb', s'.taskCbPool[id - 1]? = some cb' ∧ cb'.ctxInstalled = true ∧
          cb'.priority = cb.priority) ∧
        (∃ q, s.taskReadyQueue[cb.priority]? = some q ∧
          s'.taskReadyQueue[cb.priority]? = some (q ++ [id - 1])) ∧
        s'.taskReadyBitmap[cb.priority]? = some true ∧
        (∀ p, p ≠ cb.priority → s'.taskReadyQueue[p]? = s.taskReadyQueue[p]? ∧
          s'.taskReadyBitmap[p]? = s.taskReadyBitmap[p]?) ∧
        (∀ u, u ≠ id - 1 → s'.taskCbPool[u]? = s.taskCbPool[u]?) ∧
        s'.runningTask = s.runningTask ∧
        s'.cpuLockActive = false ∧
        (∃ pr, runningTaskPriority s' = some pr ∧
          (y = true ↔ nextTaskPriority s' < pr))) := by
  obtain ⟨hi, -⟩ := List.getElem?_eq_some.mp hcb
  have hmem : cb ∈ s.taskCbPool := List.getElem?_mem hcb
  have hp : cb.priority < s.taskReadyQueue.length := hwf.2.1 cb hmem
  obtain ⟨q0, hq⟩ : ∃ q, s.taskReadyQueue[cb.priority]? = some q :=
    ⟨_, List.getElem?_eq_getElem hp⟩
  have hlcpu : lock_cpu s = Except.ok { s with cpuLockActive := true } := by
    simp [lock_cpu, hlock]
  constructor
  · intro hst
    have hse : ({ s with cpuLockActive := false } : KernelState) = s :=
      kernelState_eq _ _ rfl rfl rfl rfl hlock.symm
    simp [task_activate, hlcpu, activate, hcb, hst, hse]
  · intro hst
    have hbl : cb.priority < s.taskReadyBitmap.length := by rw [hwf.1]; exact hp
    obtain ⟨pr, hpr⟩ : ∃ p, runningTaskPriority
        { taskCbPool := s.taskCbPool.set (id - 1) (⟨cb.priority, TaskSt.Ready, true⟩ : TaskCb),
          runningTask := s.runningTask,
          taskReadyQueue := s.taskReadyQueue.set cb.priority (q0 ++ [id - 1]),
          taskReadyBitmap := s.taskReadyBitmap.set cb.priority true,
          cpuLockActive := true } = some p := by
      apply runningTaskPriority_isSome
      intro t h
      simp only [List.length_set]
      exact hwf.2.2.2.1 t (Option.mem_def.mpr h)
    refine Exists.intro
      { taskCbPool := s.taskCbPool.set (id - 1) (⟨cb.priority, TaskSt.Ready, true⟩ : TaskCb),
        runningTask := s.runningTask,
        taskReadyQueue := s.taskReadyQueue.set cb.priority (q0 ++ [id - 1]),
        taskReadyBitmap := s.taskReadyBitmap.set cb.priority true,
        cpuLockActive := false }
      (Exists.intro
        (decide (nextTaskPriority
          { taskCbPool := s.taskCbPool.set (id - 1) (⟨cb.priority, TaskSt.Ready, true⟩ : TaskCb),
            runningTask := s.runningTask,
            taskReadyQueue := s.taskReadyQueue.set cb.priority (q0 ++ [id - 1]),
            taskReadyBitmap := s.taskReadyBitmap.set cb.priority true,
            cpuLockActive := true } < pr))
        ⟨?_, ?_, ?_, ?_, ?_, ?_, ?_, rfl, rfl, ?_⟩)
    · simp [task_activate, hlcpu, activate, hcb, hst, init_task_state, make_ready,
        List.getElem?_set_eq_of_lt _ hi, hq, List.set_set,
        unlock_cpu_and_check_preemption, hpr]
    · simp [taskSt, List.getElem?_set_eq_of_lt _ hi]
    · exact ⟨⟨cb.priority, TaskSt.Ready, true⟩,
        by simp [List.getElem?_set_eq_of_lt _ hi], rfl, rfl⟩
    · exact ⟨q0, hq, by simp [List.getElem?_set_eq_of_lt _ hp]⟩
    · simp [List.getElem?_set_eq_of_lt _ hbl]
    · intro p hpp
      exact ⟨List.getElem?_set_ne (Ne.symm hpp), List.getElem?_set_ne (Ne.symm hpp)⟩
    · intro u hu
      exact List.getElem?_set_ne (Ne.symm hu)
    · exact ⟨pr, hpr, by simp only [decide_eq_true_eq]; exact Iff.rfl⟩

theorem C3_task_activate_witness :
    ((⟨1, TaskSt.Dormant, false⟩ : TaskCb).st ≠ TaskSt.Dormant →
      task_activate ⟨[⟨1, TaskSt.Dormant, false⟩, ⟨2, TaskSt.Running, true⟩], some 1,
          [[], [], []], [false, false, false], false⟩ 1 =
        some (⟨[⟨1, TaskSt.Dormant, false⟩, ⟨2, TaskSt.Running, true⟩], some 1,
          [[], [], []], [false, false, false], false⟩, false,
          Except.error ActivateTaskError.QueueOverflow)) ∧
    ((⟨1, TaskSt.Dormant, false⟩ : TaskCb).st = TaskSt.Dormant →
      ∃ s' y, task_activate ⟨[⟨1, TaskSt.Dormant, false⟩, ⟨2, TaskSt.Running, true⟩], some 1,
          [[], [], []], [false, false, false], false⟩ 1 = some (s', y, Except.ok ()) ∧
        taskSt s' (1 - 1) = some TaskSt.Ready ∧
        (∃ cb', s'.taskCbPool[1 - 1]? = some cb' ∧ cb'.ctxInstalled = true ∧
          cb'.priority = (⟨1, TaskSt.Dormant, false⟩ : TaskCb).priority) ∧
        (∃ q, (⟨[⟨1, TaskSt.Dormant, false⟩, ⟨2, TaskSt.Running, true⟩], some 1,
            [[], [], []], [false, false, false], false⟩ :
              KernelState).taskReadyQueue[(⟨1, TaskSt.Dormant, false⟩ : TaskCb).priority]? =
            some q ∧
          s'.taskReadyQueue[(⟨1, TaskSt.Dormant, false⟩ : TaskCb).priority]? =
            some (q ++ [1 - 1])) ∧
        s'.taskReadyBitmap[(⟨1, TaskSt.Dormant, false⟩ : TaskCb).priority]? = some true ∧
        (∀ p, p ≠ (⟨1, TaskSt.Dormant, false⟩ : TaskCb).priority →
          s'.taskReadyQueue[p]? =
            (⟨[⟨1, TaskSt.Dormant, false⟩, ⟨2, TaskSt.Running, true⟩], some 1,
              [[], [], []], [false, false, false], false⟩ : KernelState).taskReadyQueue[p]? ∧
          s'.taskReadyBitmap[p]? =
            (⟨[⟨1, TaskSt.Dormant, false⟩, ⟨2, TaskSt.Running, true⟩], some 1,
              [[], [], []], [false, false, false], false⟩ : KernelState).taskReadyBitmap[p]?) ∧
        (∀ u, u ≠ 1 - 1 → s'.taskCbPool[u]? =
          (⟨[⟨1, TaskSt.Dormant, false⟩, ⟨2, TaskSt.Running, true⟩], some 1,
            [[], [], []], [false, false, false], false⟩ : KernelState).taskCbPool[u]?) ∧
        s'.runningTask =
          (⟨[⟨1, TaskSt.Dormant, false⟩, ⟨2, TaskSt.Running, true⟩], some 1,
            [[], [], []], [false, false, false], false⟩ : KernelState).runningTask ∧
        s'.cpuLockActive = false ∧
        (∃ pr, runningTaskPriority s' = some pr ∧
          (y = true ↔ nextTaskPriority s' < pr))) :=
  C3_task_activate ⟨[⟨1, TaskSt.Dormant, false⟩, ⟨2, TaskSt.Running, true⟩], some 1,
    [[], [], []], [false, false, false], false⟩ 1 ⟨1, TaskSt.Dormant, false⟩
    rfl (by decide) rfl

/-! ### C4: the preemption check -/

/-- C4: with CPU-Lock held, unlock_cpu_and_check_preemption reads the
running task's priority (or usize::max_value() when there is none) and
the lowest set bit of the ready bitmap (or usize::max_value()), releases
CPU-Lock, and invokes the port's yield_cpu exactly when the next
priority is strictly below the previous one; the returned state shows
the lock already inactive at the moment of that call. -/
theorem C4_unlock_cpu_and_check_preemption (s : KernelState)
    (hlock : s.cpuLockActive = true) (hwf : WF s) :
    ∃ s' yielded, unlock_cpu_and_check_preemption s = some (s', yielded) ∧
      s' = { s with cpuLockActive := false } ∧
      s'.cpuLockActive = false ∧
      (s.runningTask = none → (yielded = true ↔ nextTaskPriority s < usizeMax)) ∧
      (∀ t cb, s.runningTask = some t → s.taskCbPool[t]? = some cb →
        (yielded = true ↔ nextTaskPriority s < cb.priority)) := by
  obtain ⟨prev, hp⟩ : ∃ p, runningTaskPriority s = some p := by
    cases hr : s.runningTask with
    | none => exact ⟨usizeMax, by simp [runningTaskPriority, hr]⟩
    | some t =>
      have ht : t < s.taskCbPool.length := hwf.2.2.2.1 t (by simp [hr])
      exact ⟨(s.taskCbPool.get ⟨t, ht⟩).priority,
        by simp [runningTaskPriority, hr, List.getElem?_eq_getElem ht]⟩
  refine ⟨{ s with cpuLockActive := false }, decide (nextTaskPriority s < prev),
    ?_, rfl, rfl, ?_, ?_⟩
  · unfold unlock_cpu_and_check_preemption
    rw [hp]
  · intro hnone
    have hpu : prev = usizeMax := by
      unfold runningTaskPriority at hp
      rw [hnone] at hp
      simpa using hp.symm
    subst hpu; simp
  · intro t cb ht hcb
    have hpc : prev = cb.priority := by
      unfold runningTaskPriority at hp
      rw [ht] at hp
      simp [hcb] at hp
      exact hp.symm
    subst hpc; simp

theorem C4_unlock_cpu_and_check_preemption_witness :
    ∃ s' yielded,
      unlock_cpu_and_check_preemption
        ⟨[⟨1, TaskSt.Running, true⟩, ⟨0, TaskSt.Ready, true⟩], some 0, [[1], []],
          [true, false], true⟩ = some (s', yielded) ∧
      s' = { (⟨[⟨1, TaskSt.Running, true⟩, ⟨0, TaskSt.Ready, true⟩], some 0, [[1], []],
          [true, false], true⟩ : KernelState) with cpuLockActive := false } ∧
      s'.cpuLockActive = false ∧
      ((⟨[⟨1, TaskSt.Running, true⟩, ⟨0, TaskSt.Ready, true⟩], some 0, [[1], []],
          [true, false], true⟩ : KernelState).runningTask = none →
        (yielded = true ↔
          nextTaskPriority ⟨[⟨1, TaskSt.Running, true⟩, ⟨0, TaskSt.Ready, true⟩], some 0,
            [[1], []], [true, false], true⟩ < usizeMax)) ∧
      (∀ t cb,
        (⟨[⟨1, TaskSt.Running, true⟩, ⟨0, TaskSt.Ready, true⟩], some 0, [[1], []],
          [true, false], true⟩ : KernelState).runningTask = some t →
        (⟨[⟨1, TaskSt.Running, true⟩, ⟨0, TaskSt.Ready, true⟩], some 0, [[1], []],
          [true, false], true⟩ : KernelState).taskCbPool[t]? = some cb →
        (yielded = true ↔
          nextTaskPriority ⟨[⟨1, TaskSt.Running, true⟩, ⟨0, TaskSt.Ready, true⟩], some 0,
            [[1], []], [true, false], true⟩ < cb.priority)) :=
  C4_unlock_cpu_and_check_preemption _ rfl (by decide)

/-! ### C6: self-exit -/

/-- C6: exit_current_task activates CPU-Lock when it is inactive,
asserts that the running task exists and is in the Running state (the
call panics otherwise, modelled by none), transitions it to Dormant,
clears running_task, and hands the state to the port's
exit_and_dispatch with the CPU-Lock guard forgotten: the final state
still holds the lock, every other component is untouched, and the call
never returns (its only outcome is the dispatch). -/
theorem C6_exit_task :
    (∀ s t cb, s.runningTask = some t → s.taskCbPool[t]? = some cb →
      cb.st = TaskSt.Running →
      ∃ out, exit_current_task s = some out ∧
        out.exitedTask = t ∧
        out.finalState.cpuLockActive = true ∧
        out.finalState.runningTask = none ∧
        taskSt out.finalState t = some TaskSt.Dormant ∧
        out.finalState.taskReadyQueue = s.taskReadyQueue ∧
        out.finalState.taskReadyBitmap = s.taskReadyBitmap ∧
        taskPri out.finalState t = some cb.priority ∧
        (∀ u, u ≠ t → out.finalState.taskCbPool[u]? = s.taskCbPool[u]?)) ∧
    (∀ s t cb, s.runningTask = some t → s.taskCbPool[t]? = some cb →
      cb.st ≠ TaskSt.Running → exit_current_task s = none) := by
  constructor
  · intro s t cb hr hcb hst
    have ht : t < s.taskCbPool.length := by
      rcases List.getElem?_eq_some.mp hcb with ⟨h, _⟩; exact h
    have heq : exit_current_task s =
        some ⟨{ s with
          taskCbPool := s.taskCbPool.set t { cb with st := TaskSt.Dormant },
          runningTask := none,
          cpuLockActive := true }, t⟩ := by
      simp [exit_current_task, hr, hcb, hst]
    refine ⟨_, heq, rfl, rfl, rfl, ?_, rfl, rfl, ?_, ?_⟩
    · simp [taskSt, List.getElem?_set_eq_of_lt _ ht]
    · simp [taskPri, List.getElem?_set_eq_of_lt _ ht]
    · intro u hu
      exact List.getElem?_set_ne (Ne.symm hu)
  · intro s t cb hr hcb hst
    simp [exit_current_task, hr, hcb, hst]

theorem C6_exit_task_witness :
    (∃ out,
      exit_current_task ⟨[⟨2, TaskSt.Running, true⟩], some 0, [[], [], []],
        [false, false, false], false⟩ = some out ∧
      out.exitedTask = 0 ∧
      out.finalState.cpuLockActive = true ∧
      out.finalState.runningTask = none ∧
      taskSt out.finalState 0 = some TaskSt.Dormant ∧
      out.finalState.taskReadyQueue =
        (⟨[⟨2, TaskSt.Running, true⟩], some 0, [[], [], []],
          [false, false, false], false⟩ : KernelState).taskReadyQueue ∧
      out.finalState.taskReadyBitmap =
        (⟨[⟨2, TaskSt.Running, true⟩], some 0, [[], [], []],
          [false, false, false], false⟩ : KernelState).taskReadyBitmap ∧
      taskPri out.finalState 0 = some (⟨2, TaskSt.Running, true⟩ : TaskCb).priority ∧
      (∀ u, u ≠ 0 → out.finalState.taskCbPool[u]? =
        (⟨[⟨2, TaskSt.Running, true⟩], some 0, [[], [], []],
          [false, false, false], false⟩ : KernelState).taskCbPool[u]?)) ∧
    exit_current_task ⟨[⟨2, TaskSt.Waiting, true⟩], some 0, [[], [], []],
        [false, false, false], true⟩ = none :=
  ⟨C6_exit_task.1 _ 0 _ rfl rfl rfl,
   C6_exit_task.2 _ 0 ⟨2, TaskSt.Waiting, true⟩ rfl rfl (by decide)⟩

theorem C10_task_current_witness :
    task_current ⟨[⟨0, TaskSt.Running, true⟩], some 0, [[]], [false], true⟩ =
      Except.error GetCurrentTaskError.BadContext ∧
    task_current ⟨[⟨0, TaskSt.Running, true⟩], some 0, [[]], [false], false⟩ =
      Except.ok (some 1) :=
  ⟨(C10_task_current _).1 rfl, (C10_task_current _).2.2 0 rfl rfl⟩

/-- C7: PortToKernel::boot, entered with CPU-Lock active, first
initializes every task control block in pool order — a task found in
PendingActivation has its initial context installed and is transitioned
to Ready, tasks in any other state are left untouched — then
initializes the timekeeping globals and the timer pool, installs the
configured interrupt-line attributes, runs the startup hooks in
registration order, and finally forgets the CPU-Lock guard, so CPU-Lock
is still active when dispatch_first_task is called. -/
theorem C7_boot (hooks : List Nat) (s : KernelState)
    (hlock : s.cpuLockActive = true) (hwf : WF s) :
    ∃ s' ev, boot hooks s = some (s', ev) ∧
      ev = ((List.range s.taskCbPool.length).filter
          (fun i => decide (taskSt s i = some TaskSt.PendingActivation))).map
          BootEvent.TaskCtxInstalled
        ++ [BootEvent.TimeoutInit, BootEvent.TimerInit, BootEvent.InterruptAttrInit]
        ++ hooks.map BootEvent.StartupHook
        ++ [BootEvent.DispatchFirstTask] ∧
      s'.cpuLockActive = true ∧
      s'.runningTask = s.runningTask ∧
      (∀ (j : Nat) (cb : TaskCb), s.taskCbPool[j]? = some cb →
        (cb.st = TaskSt.PendingActivation →
          s'.taskCbPool[j]? = some ⟨cb.priority, TaskSt.Ready, true⟩) ∧
        (cb.st ≠ TaskSt.PendingActivation → s'.taskCbPool[j]? = some cb)) := by
  obtain ⟨s1, ev1, hinit, hev, hl, hr, hlen, heff⟩ :=
    init_tasks_spec (List.range s.taskCbPool.length) s hwf (List.nodup_range _)
      (fun i hi => List.mem_range.mp hi)
  refine ⟨s1, ev1
      ++ [BootEvent.TimeoutInit, BootEvent.TimerInit, BootEvent.InterruptAttrInit]
      ++ hooks.map BootEvent.StartupHook
      ++ [BootEvent.DispatchFirstTask], ?_, ?_, ?_, hr, ?_⟩
  · unfold boot
    simp [hinit]
  · rw [hev]
  · rw [hl, hlock]
  · intro j cb hcb
    obtain ⟨h1, h2⟩ := heff j cb hcb
    obtain ⟨hjl, -⟩ := List.getElem?_eq_some.mp hcb
    have hjr : j ∈ List.range s.taskCbPool.length := List.mem_range.mpr hjl
    by_cases hst : cb.st = TaskSt.PendingActivation
    · exact ⟨fun _ => h1 hjr hst, fun hne => absurd hst hne⟩
    · exact ⟨fun hp => absurd hp hst, fun _ => h2 (Or.inr hst)⟩

/-- Witness for C7 at a concrete two-task configuration: one task
pending activation, one dormant, boot with two startup hooks. -/
theorem C7_boot_witness :
    (⟨[⟨1, TaskSt.PendingActivation, false⟩, ⟨2, TaskSt.Dormant, false⟩], none,
      [[], [], []], [false, false, false], true⟩ : KernelState).cpuLockActive = true ∧
    WF (⟨[⟨1, TaskSt.PendingActivation, false⟩, ⟨2, TaskSt.Dormant, false⟩], none,
      [[], [], []], [false, false, false], true⟩ : KernelState) ∧
    ∃ s' ev, boot [7, 8]
        (⟨[⟨1, TaskSt.PendingActivation, false⟩, ⟨2, TaskSt.Dormant, false⟩], none,
          [[], [], []], [false, false, false], true⟩ : KernelState) = some (s', ev) ∧
      ev = ((List.range (⟨[⟨1, TaskSt.PendingActivation, false⟩,
            ⟨2, TaskSt.Dormant, false⟩], none, [[], [], []], [false, false, false],
            true⟩ : KernelState).taskCbPool.length).filter
          (fun i => decide (taskSt (⟨[⟨1, TaskSt.PendingActivation, false⟩,
            ⟨2, TaskSt.Dormant, false⟩], none, [[], [], []], [false, false, false],
            true⟩ : KernelState) i = some TaskSt.PendingActivation))).map
          BootEvent.TaskCtxInstalled
        ++ [BootEvent.TimeoutInit, BootEvent.TimerInit, BootEvent.InterruptAttrInit]
        ++ [7, 8].map BootEvent.StartupHook
        ++ [BootEvent.DispatchFirstTask] ∧
      s'.cpuLockActive = true ∧
      s'.runningTask = (⟨[⟨1, TaskSt.PendingActivation, false⟩,
        ⟨2, TaskSt.Dormant, false⟩], none, [[], [], []], [false, false, false],
        true⟩ : KernelState).runningTask ∧
      (∀ (j : Nat) (cb : TaskCb), (⟨[⟨1, TaskSt.PendingActivation, false⟩, ⟨2, TaskSt.Dormant, false⟩],
          none, [[], [], []], [false, false, false],
          true⟩ : KernelState).taskCbPool[j]? = some cb →
        (cb.st = TaskSt.PendingActivation →
          s'.taskCbPool[j]? = some ⟨cb.priority, TaskSt.Ready, true⟩) ∧
        (cb.st ≠ TaskSt.PendingActivation → s'.taskCbPool[j]? = some cb)) :=
  ⟨rfl, by decide, C7_boot [7, 8] _ rfl (by decide)⟩

/-- C2: the running-task invariant — running_task = Some(t) implies
t is in the Running state and t is not linked into any ready-queue
bucket.  First part: choose_next_running_task preserves the invariant
(under the representation invariants of the scheduler state).  Second
part: wait_until_woken_up re-establishes it on return, for any
environment (dispatcher, interrupt handlers, other tasks) whose steps
preserve the between-sections invariant: the loop only exits once the
parked task reads Running again, and the only writer of a Running state
also stores running_task. -/
theorem C2_running_task_invariant :
    (∀ s s', WF s → ReadyInv s → RunningInv s →
      choose_next_running_task s = some s' → RunningInv s') ∧
    (∀ env fuel s s', EnvOK env → MidInv s →
      wait_until_woken_up env fuel s = some s' → RunningInv s') := by
  constructor
  · intro s s' hwf hinv hrun h
    rcases choose_next_inv s s' hwf h with rfl | ⟨s1, h1, s2, hpop, hsp, rfl⟩
    · exact hrun
    · intro u hu hueq
      have hu1 : h1 = u := by simpa using hueq
      subst hu1
      obtain ⟨hinv1, hcnt1⟩ := pop_ReadyInv s s1 _ h1 hwf hinv hpop
      obtain ⟨rest, cb, hq, hcb, hs1⟩ := pop_front_task_inv s _ s1 h1 hpop
      have hh1 : h1 < s.taskCbPool.length :=
        hwf.2.2.1 _ (List.getElem?_mem hq) h1 (List.mem_cons_self _ _)
      have hpool1 : s1.taskCbPool
          = s.taskCbPool.set h1 { cb with st := TaskSt.Running } := by
        rw [hs1]
      have hst1 : taskSt s1 h1 = some TaskSt.Running := by
        rw [taskSt, hpool1, List.getElem?_set_eq_of_lt _ hh1]
        rfl
      rcases settle_prev_task_inv s1 s.runningTask s2 hsp with ⟨-, rfl⟩ |
        ⟨t, cbt, hprev, hcbt, hcase⟩
      · exact ⟨hst1, hcnt1⟩
      · have htl : t < s.taskCbPool.length :=
          hwf.2.2.2.1 t (Option.mem_def.mpr hprev)
        obtain ⟨hstR, hcnt0⟩ := hrun t htl hprev
        have hne : t ≠ h1 := by
          intro he
          subst he
          exact not_mem_bucket_of_count_zero s t hcnt0 _ (List.getElem?_mem hq)
            (List.mem_cons_self _ _)
        rcases hcase with ⟨hstt, hmr⟩ | ⟨-, rfl⟩
        · obtain ⟨cbt2, q2, hcbt2, hq2, hs2⟩ := make_ready_inv s1 t s2 hmr
          have hpool2 : s2.taskCbPool
              = s1.taskCbPool.set t { cbt2 with st := TaskSt.Ready } := by
            rw [hs2]
          have hst2 : taskSt s2 h1 = some TaskSt.Running := by
            rw [taskSt, hpool2, List.getElem?_set_ne hne]
            exact hst1
          have hcnt2 : inBucketCount s2 h1 = 0 := by
            rw [inBucketCount_make_ready s1 s2 t h1 hmr, hcnt1, if_neg hne]
          exact ⟨hst2, hcnt2⟩
        · exact ⟨hst1, hcnt1⟩
  · intro env fuel s s' henv hmid h
    unfold wait_until_woken_up at h
    split at h
    · exact absurd h (by simp)
    · rename_i t hrt
      split at h
      · exact absurd h (by simp)
      · rename_i cb hcb
        split at h
        · rename_i hst
          obtain ⟨htl, -⟩ := List.getElem?_eq_some.mp hcb
          have hsts : taskSt s t = some TaskSt.Running := by
            rw [taskSt, hcb]
            simp [hst]
          obtain ⟨-, hcnt0⟩ := hmid.2.2 t htl hsts
          set sW : KernelState := { s with
            taskCbPool := s.taskCbPool.set t { cb with st := TaskSt.Waiting } }
            with hsW
          have hPW : sW.taskCbPool
              = s.taskCbPool.set t { cb with st := TaskSt.Waiting } := by
            rw [hsW]
          have hQW : sW.taskReadyQueue = s.taskReadyQueue := by rw [hsW]
          have hBW : sW.taskReadyBitmap = s.taskReadyBitmap := by rw [hsW]
          have hcntW : ∀ j, inBucketCount sW j = inBucketCount s j := by
            intro j
            simp only [inBucketCount, hQW]
          have hstWne : ∀ u, u ≠ t → taskSt sW u = taskSt s u := by
            intro u hu
            rw [taskSt, taskSt, hPW, List.getElem?_set_ne fun he => hu he.symm]
          have hstWt : taskSt sW t = some TaskSt.Waiting := by
            rw [taskSt, hPW, List.getElem?_set_eq_of_lt _ htl]
            rfl
          have hmidW : MidInv sW := by
            refine ⟨?_, ⟨?_, ?_, ?_⟩, ?_⟩
            · rw [hsW]
              exact WF_set_same_priority s t cb _ hcb rfl hmid.1
            · intro p hp
              rw [hQW] at hp
              rw [hBW, hQW]
              exact hmid.2.1.1 p hp
            · intro j hj
              rw [hPW, List.length_set] at hj
              rw [hcntW j]
              exact hmid.2.1.2.1 j hj
            · intro qq hqq j hj
              rw [hQW] at hqq
              by_cases hjt : j = t
              · subst hjt
                exact absurd hj (not_mem_bucket_of_count_zero s j hcnt0 qq hqq)
              · rw [hstWne j hjt]
                exact hmid.2.1.2.2 qq hqq j hj
            · intro u hu hstu
              rw [hPW, List.length_set] at hu
              by_cases hut : u = t
              · subst hut
                rw [hstWt] at hstu
                exact absurd (Option.some_inj.mp hstu) (by decide)
              · rw [hstWne u hut] at hstu
                obtain ⟨hru, -⟩ := hmid.2.2 u hu hstu
                rw [hrt] at hru
                exact absurd (Option.some_inj.mp hru).symm hut
          obtain ⟨hmid', hstfin⟩ := wait_loop_inv t env henv fuel 0 sW s' hmidW h
          cases hcbf : s'.taskCbPool[t]? with
          | none =>
            rw [taskSt, hcbf] at hstfin
            exact absurd hstfin (by simp)
          | some cbf =>
            obtain ⟨htl', -⟩ := List.getElem?_eq_some.mp hcbf
            obtain ⟨hrt', hcnt'⟩ := hmid'.2.2 t htl' hstfin
            intro u hu hueq
            rw [hrt'] at hueq
            obtain rfl : t = u := Option.some_inj.mp hueq
            exact ⟨hstfin, hcnt'⟩
        · exact absurd h (by simp)

/-- Witness for C2: a preemption step of choose_next_running_task on a
two-task configuration, and a one-iteration wait under a constant
invariant-preserving environment. -/
theorem C2_running_task_invariant_witness :
    (WF (⟨[⟨0, TaskSt.Ready, true⟩, ⟨1, TaskSt.Running, true⟩], some 1,
        [[0], []], [true, false], true⟩ : KernelState) ∧
     ReadyInv (⟨[⟨0, TaskSt.Ready, true⟩, ⟨1, TaskSt.Running, true⟩], some 1,
        [[0], []], [true, false], true⟩ : KernelState) ∧
     RunningInv (⟨[⟨0, TaskSt.Ready, true⟩, ⟨1, TaskSt.Running, true⟩], some 1,
        [[0], []], [true, false], true⟩ : KernelState) ∧
     choose_next_running_task (⟨[⟨0, TaskSt.Ready, true⟩, ⟨1, TaskSt.Running, true⟩],
        some 1, [[0], []], [true, false], true⟩ : KernelState)
       = some (⟨[⟨0, TaskSt.Running, true⟩, ⟨1, TaskSt.Ready, true⟩], some 0,
        [[], [1]], [false, true], true⟩ : KernelState) ∧
     RunningInv (⟨[⟨0, TaskSt.Running, true⟩, ⟨1, TaskSt.Ready, true⟩], some 0,
        [[], [1]], [false, true], true⟩ : KernelState)) ∧
    (EnvOK (fun _ _ =>
        (⟨[⟨0, TaskSt.Running, true⟩], some 0, [[]], [false], true⟩ : KernelState)) ∧
     MidInv (⟨[⟨0, TaskSt.Running, true⟩], some 0, [[]], [false], true⟩ : KernelState) ∧
     wait_until_woken_up (fun _ _ =>
        (⟨[⟨0, TaskSt.Running, true⟩], some 0, [[]], [false], true⟩ : KernelState)) 1
        (⟨[⟨0, TaskSt.Running, true⟩], some 0, [[]], [false], true⟩ : KernelState)
       = some (⟨[⟨0, TaskSt.Running, true⟩], some 0, [[]], [false], true⟩ : KernelState) ∧
     RunningInv (⟨[⟨0, TaskSt.Running, true⟩], some 0, [[]], [false],
        true⟩ : KernelState)) :=
  ⟨⟨by decide, by decide, by decide, by decide,
    C2_running_task_invariant.1
      (⟨[⟨0, TaskSt.Ready, true⟩, ⟨1, TaskSt.Running, true⟩], some 1,
        [[0], []], [true, false], true⟩ : KernelState)
      (⟨[⟨0, TaskSt.Running, true⟩, ⟨1, TaskSt.Ready, true⟩], some 0,
        [[], [1]], [false, true], true⟩ : KernelState)
      (by decide) (by decide) (by decide) (by decide)⟩,
   ⟨fun _ _ _ => (by decide : MidInv (⟨[⟨0, TaskSt.Running, true⟩], some 0,
        [[]], [false], true⟩ : KernelState)), by decide, by decide,
    C2_running_task_invariant.2
      (fun _ _ =>
        (⟨[⟨0, TaskSt.Running, true⟩], some 0, [[]], [false], true⟩ : KernelState)) 1
      (⟨[⟨0, TaskSt.Running, true⟩], some 0, [[]], [false], true⟩ : KernelState)
      (⟨[⟨0, TaskSt.Running, true⟩], some 0, [[]], [false], true⟩ : KernelState)
      (fun _ _ _ => (by decide : MidInv (⟨[⟨0, TaskSt.Running, true⟩], some 0,
        [[]], [false], true⟩ : KernelState))) (by decide) (by decide)⟩⟩

end Constance
